import Mathlib

/-!
Verification development for the aiflow repository.

Shallow embedding of the parts of the source relevant to the frozen claims:
* `src/aiflow/network/ws_server.py` — `ChunkTracker`, `ConnectionManager`
* `src/aiflow/network/ws_client.py` — `WebSocketClient.connect`, `WebSocketClient.send`
* `src/aiflow/events/event_base.py` — `EventBase.handle_message`,
  `EventBase.send_response_sync`
* `src/aiflow/mui/mui_component.py` — `MUIComponent.to_dict`, `_process_props`
* `src/aiflow/mui/mui_builder.py` — `MUIBuilder._build_complete_component_structure`

Python dicts are modelled as association lists with Python dict semantics:
insertion updates the value in place when the key is present (keeping its
position) and appends otherwise; iteration order is list order; `len` is the
number of entries; `del` removes the entry.  This matches CPython's
insertion-ordered dicts on the unique-key states reachable through these
operations.
-/

namespace Aiflow

/-- Python `d[k] = v` on a dict: update in place when present, else append. -/
def dictInsert {κ α : Type} [DecidableEq κ] (k : κ) (v : α) (m : List (κ × α)) : List (κ × α) :=
  if m.any (fun p => p.1 = k) then m.map (fun p => if p.1 = k then (k, v) else p)
  else m ++ [(k, v)]

/-- Python `d.get(k)` / `d[k]` lookup: the value at key `k`, if present. -/
def dictLookup {κ α : Type} [DecidableEq κ] (k : κ) : List (κ × α) → Option α
  | [] => none
  | p :: rest => if p.1 = k then some p.2 else dictLookup k rest

/-- Python `k in d`. -/
def dictHasKey {κ α : Type} [DecidableEq κ] (k : κ) (m : List (κ × α)) : Bool :=
  (dictLookup k m).isSome

/-- Python `del d[k]` (keys are unique in reachable states, so filtering is exact). -/
def dictRemove {κ α : Type} [DecidableEq κ] (k : κ) (m : List (κ × α)) : List (κ × α) :=
  m.filter (fun p => p.1 ≠ k)

/-- Python `d[k] = True` on a dict used as a set of keys (`received_chunks`). -/
def keyInsert {κ : Type} [DecidableEq κ] (k : κ) (s : List κ) : List κ :=
  if k ∈ s then s else s ++ [k]

/-! ## Chunked transfer payloads (ws_server.py)

A chunk's `payload` is the fragment of the logical JSON message being
reassembled.  `get_complete_message` reads `payload['type']`,
`payload['fileEvent']` and `payload['fileEvent']['data']`; all other JSON
content is carried through unchanged and is modelled by opaque `rest` fields. -/

/-- The `fileEvent` object inside a file-change payload; `data` is the base64
fragment that reassembly concatenates, `rest` the untouched remaining keys. -/
structure FileEvent where
  data : String
  rest : List (String × String)
deriving DecidableEq, Repr

/-- A chunk's `payload` dict: its `type` key (`.get` so optional), its optional
`fileEvent` object, and the untouched remaining keys. -/
structure ChunkPayload where
  ptype : Option String
  fileEvent : Option FileEvent
  rest : List (String × String)
deriving DecidableEq, Repr

/-- One chunk frame's payload slice as stored by the tracker (`chunk_data`). -/
structure Chunk where
  payload : ChunkPayload
  rest : List (String × String)
deriving DecidableEq, Repr

/-- One reassembly record of the tracker:
`{ total_chunks, received_chunks, data, sender_id, timestamp }`. -/
structure ChunkEntry where
  total_chunks : Nat
  received_chunks : List Nat
  data : List (Nat × Chunk)
  sender_id : String
  timestamp : Nat
deriving DecidableEq, Repr

/-- The server-side `ChunkTracker` state: `self.chunks` and `self._last_activity`. -/
structure ChunkTracker where
  chunks : List (String × ChunkEntry)
  lastActivity : List (String × Nat)
deriving DecidableEq, Repr

/-- A fresh `ChunkTracker()`. -/
def ChunkTracker.empty : ChunkTracker := { chunks := [], lastActivity := [] }

/-- `ChunkTracker.is_complete`: a record is complete iff it exists and the
number of received chunk indices equals `total_chunks`. -/
def ChunkTracker.is_complete (t : ChunkTracker) (message_id : String) : Bool :=
  match dictLookup message_id t.chunks with
  | none => false
  | some e => e.received_chunks.length == e.total_chunks

/-- `ChunkTracker.add_chunk`: create the record on first sight of
`message_id`, then store the chunk under its index and refresh
`_last_activity`; returns `is_complete` of the updated state. -/
def ChunkTracker.add_chunk (t : ChunkTracker) (message_id : String) (chunk_index : Nat)
    (total_chunks : Nat) (chunk_data : Chunk) (sender_id : String) (now : Nat) :
    Bool × ChunkTracker :=
  let chunks0 :=
    if dictHasKey message_id t.chunks then t.chunks
    else dictInsert message_id
      { total_chunks := total_chunks, received_chunks := [], data := [],
        sender_id := sender_id, timestamp := now } t.chunks
  let chunks1 := chunks0.map (fun p =>
    if p.1 = message_id then
      (message_id,
        { p.2 with
          received_chunks := keyInsert chunk_index p.2.received_chunks,
          data := dictInsert chunk_index chunk_data p.2.data })
    else p)
  let t1 : ChunkTracker :=
    { chunks := chunks1, lastActivity := dictInsert message_id now t.lastActivity }
  (t1.is_complete message_id, t1)

/-- Result of `ChunkTracker.get_complete_message`: `err` models an uncaught
`KeyError`/`IndexError` escaping the method, `noneRes` the `None` returns, and
`ok` a successfully reassembled logical message with its sender. -/
inductive GetResult where
  | err : GetResult
  | noneRes : GetResult
  | ok : Chunk → String → GetResult
deriving DecidableEq, Repr

/-- `ChunkTracker.get_complete_message`: when the record is complete, read the
chunks in ascending index order; if the first chunk is a `file-change` payload
carrying a `fileEvent`, concatenate the per-chunk `fileEvent['data']` strings
in that order into a copy of the first chunk, delete the record, and return the
reassembled message with its sender; otherwise return `None` and keep the
record. -/
def ChunkTracker.get_complete_message (t : ChunkTracker) (message_id : String) :
    GetResult × ChunkTracker :=
  if t.is_complete message_id = false then (.noneRes, t)
  else
    match dictLookup message_id t.chunks with
    | none => (.noneRes, t)
    | some e =>
      match (List.range e.total_chunks).mapM (fun i => dictLookup i e.data) with
      | none => (.err, t)
      | some sorted_chunks =>
        match sorted_chunks with
        | [] => (.err, t)
        | first_chunk :: _ =>
          match first_chunk.payload.fileEvent with
          | some fe0 =>
            if first_chunk.payload.ptype = some "file-change" then
              match sorted_chunks.mapM (fun c => c.payload.fileEvent) with
              | none => (.err, t)
              | some fes =>
                let combined_base64 := String.join (fes.map FileEvent.data)
                let newFileEvent : FileEvent := { fe0 with data := combined_base64 }
                let newPayload : ChunkPayload :=
                  { first_chunk.payload with fileEvent := some newFileEvent }
                let complete_message : Chunk := { first_chunk with payload := newPayload }
                (.ok complete_message e.sender_id,
                  { chunks := dictRemove message_id t.chunks,
                    lastActivity := dictRemove message_id t.lastActivity })
            else (.noneRes, t)
          | none => (.noneRes, t)

/-- `ChunkTracker.cleanup_old_chunks`: drop records idle past `max_age_seconds`. -/
def ChunkTracker.cleanup_old_chunks (t : ChunkTracker) (now : Nat)
    (max_age_seconds : Nat := 300) : ChunkTracker :=
  let stale := fun (mid : String) (e : ChunkEntry) =>
    max_age_seconds < now - ((dictLookup mid t.lastActivity).getD e.timestamp)
  { chunks := t.chunks.filter (fun p => ¬ stale p.1 p.2),
    lastActivity := t.lastActivity.filter (fun p =>
      match dictLookup p.1 t.chunks with
      | none => true
      | some e => ¬ stale p.1 e) }

/-! ## WebSocket client configuration and connect loop (ws_client.py, config.py)

Delays are Python floats; they are embedded as rationals, which represents the
configuration values (`1.0`, `30.0`, …) and the `min`/`*`/`2 ** attempt`
arithmetic of the backoff expression exactly. -/

/-- The recognized `websocket.*` configuration options (flow/config.py). -/
structure WebSocketConfig where
  retry_max_attempts : Nat
  retry_base_delay : ℚ
  retry_max_delay : ℚ
  connection_timeout : ℚ
  max_connections : Nat
deriving DecidableEq, Repr

/-- The defaults of `WebSocketConfig` in flow/config.py. -/
def WebSocketConfig.default : WebSocketConfig :=
  { retry_max_attempts := 5, retry_base_delay := 1, retry_max_delay := 30,
    connection_timeout := 10, max_connections := 100 }

/-- The backoff delay computed inside `WebSocketClient.connect`:
`min(config.websocket.retry_base_delay * (2 ** attempt), config.websocket.retry_max_delay)`. -/
def backoffDelay (cfg : WebSocketConfig) (attempt : Nat) : ℚ :=
  min (cfg.retry_base_delay * 2 ^ attempt) cfg.retry_max_delay

/-- Outcome of `WebSocketClient.connect`: either it returned early because the
client was already connected, or it returned after a successful attempt, or it
raised `ConnectionError("Max retry attempts reached")`.  `attempts` counts the
connection attempts performed, `delays` the backoff sleeps in order. -/
inductive ConnectOutcome where
  | alreadyConnected : ConnectOutcome
  | connected : (attempts : Nat) → (delays : List ℚ) → ConnectOutcome
  | maxRetryError : (attempts : Nat) → (delays : List ℚ) → ConnectOutcome
deriving DecidableEq, Repr

/-- Number of connection attempts an outcome performed. -/
def ConnectOutcome.attempts : ConnectOutcome → Nat
  | .alreadyConnected => 0
  | .connected n _ => n
  | .maxRetryError n _ => n

/-- Whether the outcome is the terminal `ConnectionError`. -/
def ConnectOutcome.isError : ConnectOutcome → Bool
  | .maxRetryError _ _ => true
  | _ => false

/-- The `for attempt in range(retry_max_attempts)` loop of
`WebSocketClient.connect`: before every attempt but the first, sleep the
backoff delay; try to connect (`attemptFails attempt` tells whether the
`websocket_connect`/handshake of that attempt raises); a successful attempt
returns, a failed one is logged and the loop continues; falling off the loop
raises `ConnectionError`. -/
def connectLoop (cfg : WebSocketConfig) (attemptFails : Nat → Bool) :
    (remaining attempt : Nat) → (doneAttempts : Nat) → (delays : List ℚ) → ConnectOutcome
  | 0, _, doneAttempts, delays => .maxRetryError doneAttempts delays.reverse
  | remaining + 1, attempt, doneAttempts, delays =>
    let delays1 := if 0 < attempt then backoffDelay cfg attempt :: delays else delays
    if attemptFails attempt then
      connectLoop cfg attemptFails remaining (attempt + 1) (doneAttempts + 1) delays1
    else .connected (doneAttempts + 1) delays1.reverse

/-- `WebSocketClient.connect`: return at once when already connected to a live
socket, otherwise run the retry loop. -/
def WebSocketClient.connect (alreadyConnected : Bool) (cfg : WebSocketConfig)
    (attemptFails : Nat → Bool) : ConnectOutcome :=
  if alreadyConnected then .alreadyConnected
  else connectLoop cfg attemptFails cfg.retry_max_attempts 0 0 []

/-! ## WebSocket client send path (ws_client.py) -/

/-- The chunking threshold `THRESHOLD = 1_000_000` in `WebSocketClient.send`. -/
def THRESHOLD : Nat := 1000000

/-- Observable effect of one non-failing `WebSocketClient.send` call on an open
connection: the frames written to the socket and whether the oversize warning
was logged.  The source compares `len(message_str)` against the threshold,
logs a warning (the chunked path is an unimplemented comment,
`# ...optionally implement chunked sending logic here...`), and then writes
`message_str` itself as a single frame. -/
structure SendEffect where
  framesWritten : List String
  largeMessageWarning : Bool
deriving DecidableEq, Repr

/-- `WebSocketClient.send` with `message_str` the serialized payload (after
`payload['client_id'] = target; message_str = json.dumps(payload)`). -/
def WebSocketClient.send (message_str : String) : SendEffect :=
  { framesWritten := [message_str],
    largeMessageWarning := THRESHOLD < message_str.length }

/-! ## Server connection registry (ws_server.py, `ConnectionManager`)

`add_client` and `remove_client` both enter `with self._lock:` on the same
non-reentrant `threading.Lock`.  The embedding therefore threads the lock
explicitly: a method invoked while the lock is already held by its own thread
never returns, modelled as `none`. -/

/-- The `ConnectionManager` registry: `self.clients` (client id to an opaque
handler handle) and `self._connection_count` (a Python int). -/
structure ConnectionManager where
  clients : List (String × Nat)
  connection_count : Int
deriving DecidableEq, Repr

/-- A fresh `ConnectionManager()` (chunk tracker modelled separately). -/
def ConnectionManager.empty : ConnectionManager := { clients := [], connection_count := 0 }

/-- `ConnectionManager.remove_client`, entered with `lockHeld` telling whether
the calling thread already holds `self._lock`; acquiring a non-reentrant lock
twice blocks forever (`none`). -/
def ConnectionManager.remove_client (lockHeld : Bool) (m : ConnectionManager)
    (client_id : String) : Option ConnectionManager :=
  if lockHeld then none
  else some <|
    if dictHasKey client_id m.clients then
      { clients := dictRemove client_id m.clients,
        connection_count := max 0 (m.connection_count - 1) }
    else m

/-- `ConnectionManager.add_client` with `maxConn` the configured
`max_connections`: under `self._lock`, re-registration first calls
`self.remove_client(client_id)` (which tries to re-acquire the same held lock),
then the capacity check either rejects (`false`, unchanged) or registers the
client. -/
def ConnectionManager.add_client (lockHeld : Bool) (m : ConnectionManager)
    (client_id : String) (client : Nat) (maxConn : Int) :
    Option (ConnectionManager × Bool) :=
  if lockHeld then none
  else
    let afterRemove :=
      if dictHasKey client_id m.clients then m.remove_client true client_id
      else some m
    match afterRemove with
    | none => none
    | some m1 =>
      if maxConn ≤ m1.connection_count then some (m1, false)
      else some
        ({ clients := m1.clients ++ [(client_id, client)],
           connection_count := m1.connection_count + 1 }, true)

/-! ## Event/session coordinator (events/event_base.py)

`EventBase.handle_message` is embedded as a state transition on the
coordinator's own fields.  The acknowledgement sends do not touch these fields
(`send_response_async` swallows every exception), and the script rerun happens
on a separate thread after the handler returns, so the transition below is
exactly the mutation the handler itself performs.  JSON scalars are carried as
opaque strings; an `Option` field models presence of the corresponding key
(Python `None`/missing and empty collections are the falsy cases the code
tests for). -/

/-- One entry of the `formEvents` map of an `"events"` payload: the code only
looks at whether a `value` key is present and what it holds. -/
structure FormEventData where
  value : Option String
  rest : List (String × String)
deriving DecidableEq, Repr

/-- An inbound Event Record's `payload` dict as read by `handle_message`:
`formEvents` (missing/empty map both iterate as nothing), an optional truthy
`fileEvent`, and the `key` field used to store file events. -/
structure EventsPayload where
  formEvents : List (String × FormEventData)
  fileEvent : Option FileEvent
  key : Option String
  rest : List (String × String)
deriving DecidableEq, Repr

/-- A value of the coordinator's event-value map `self.events`: either a form
control value or a stored file event. -/
inductive StoredEventValue where
  | fromForm : String → StoredEventValue
  | fromFile : FileEvent → StoredEventValue
deriving DecidableEq, Repr

/-- An inbound Event Record `{type, sender_id, client_id, payload}`. -/
structure InboundMessage where
  mtype : Option String
  sender_id : Option String
  client_id : Option String
  payload : EventsPayload
deriving DecidableEq, Repr

/-- The coordinator state: the fields `_init` creates on the `EventBase`
singleton.  `events` is keyed by `Option String` because file events are keyed
by `payload.get("key")`, which may be `None`. -/
structure EventBase where
  last_message : Option EventsPayload
  previous_sender_id : Option String
  sender_id : Option String
  session_id : Option String
  caller_file : Option String
  events : List (Option String × StoredEventValue)
  events_store : List (String × EventsPayload)
  state : List (String × String)
  paired : Bool
  is_rerun : Bool
  ready : Bool
deriving DecidableEq, Repr

/-- The coordinator state right after `_init` (before `handle_message` ran,
`previous_sender_id` is not yet an attribute; `none` stands for that too). -/
def EventBase.init : EventBase :=
  { last_message := none, previous_sender_id := none, sender_id := none,
    session_id := none, caller_file := none, events := [], events_store := [],
    state := [], paired := false, is_rerun := false, ready := false }

/-- Python truthiness of an optional string (`None` and `""` are falsy). -/
def pyTruthyStr : Option String → Bool
  | none => false
  | some s => s ≠ ""

/-- First statements of `handle_message`: store the payload, remember the
previous sender, record the new sender and session. -/
def EventBase.headerPhase (s : EventBase) (m : InboundMessage) : EventBase :=
  { s with last_message := some m.payload, previous_sender_id := s.sender_id,
           sender_id := m.sender_id, session_id := m.client_id }

/-- The pairing-change reset of `handle_message`: when a truthy previous
sender differs from the new sender, clear `events_store`, `events` and
`state`, in that order, touching nothing else. -/
def EventBase.resetPhase (s : EventBase) : EventBase :=
  if pyTruthyStr s.previous_sender_id && decide (s.previous_sender_id ≠ s.sender_id) then
    { s with events_store := [], events := [], state := [] }
  else s

/-- Merging an `"events"` payload into the event-value map: each `formEvents`
entry with a `value` key is stored under its id, then a truthy `fileEvent` is
stored under the payload's `key` field. -/
def mergeEvents (events : List (Option String × StoredEventValue)) (p : EventsPayload) :
    List (Option String × StoredEventValue) :=
  let ev1 :=
    if p.formEvents.isEmpty then events
    else p.formEvents.foldl (fun acc kv =>
      match kv.2.value with
      | some v => dictInsert (some kv.1) (StoredEventValue.fromForm v) acc
      | none => acc) events
  match p.fileEvent with
  | some fe => dictInsert p.key (StoredEventValue.fromFile fe) ev1
  | none => ev1

/-- The remainder of `handle_message` after the reset: with a truthy sender,
send the `"paired"` acknowledgement (no store mutation), and if already
paired merge an `"events"` payload into `events_store`/`events` and schedule a
rerun, else record the pairing; finally set the ready flag. -/
def EventBase.pairedPhase (s : EventBase) (m : InboundMessage) : EventBase :=
  if pyTruthyStr s.sender_id then
    if s.paired then
      let s1 :=
        if m.mtype = some "events" then
          let es := dictInsert "payload" m.payload s.events_store
          match dictLookup "payload" es with
          | some pl => { s with events_store := es, events := mergeEvents s.events pl }
          | none => { s with events_store := es }
        else s
      let s2 := if s1.caller_file.isSome then { s1 with is_rerun := true } else s1
      { s2 with ready := true }
    else { s with paired := true, ready := true }
  else s

/-- `EventBase.handle_message` as the composition of its three phases, in
source order: header bookkeeping, pairing-change reset, pairing/merge. -/
def EventBase.handle_message (s : EventBase) (m : InboundMessage) : EventBase :=
  ((s.headerPhase m).resetPhase).pairedPhase m

/-! ## Coordinator synchronous send path (events/event_base.py) -/

/-- The attribute names the `EventBase` class in events/event_base.py defines
(methods of the class body).  Python resolves `self.queue_message` against
this table and the instance attributes set in `_init`. -/
def EventBase.methodNames : List String :=
  ["__new__", "_init", "set_ws_client", "set_caller_file", "handle_message",
   "_run_module_in_thread", "send_response_sync", "send_response_async",
   "send_component_update", "send_component_update_async", "send_response",
   "get_message_info", "wait_until_ready", "is_ready", "reset_mui_state"]

/-- Instance attributes created by `EventBase._init`. -/
def EventBase.instanceAttributeNames : List String :=
  ["last_message", "sender_id", "session_id", "_ws_client", "caller_file",
   "events", "events_store", "paired", "_processing", "_ready", "state"]

/-- What one `send_response_sync` call does, when it returns. -/
inductive SyncSendResult where
  | sent : SyncSendResult
  | sendFailureLogged : SyncSendResult
  | queued : SyncSendResult
deriving DecidableEq, Repr

/-- `EventBase.send_response_sync`: with a transport client, wrap
`self._ws_client.send_sync` in a try/except that logs any exception; without
one, call `self.queue_message(payload)` — which Python resolves against the
class and instance attribute tables, raising `AttributeError` when absent. -/
def EventBase.send_response_sync (hasWsClient : Bool) (underlyingSendRaises : Bool) :
    Except String SyncSendResult :=
  if hasWsClient then
    .ok (if underlyingSendRaises then .sendFailureLogged else .sent)
  else if EventBase.methodNames.contains "queue_message"
      || EventBase.instanceAttributeNames.contains "queue_message" then
    .ok .queued
  else .error "AttributeError: EventBase object has no attribute queue_message"

/-! ## Component tree (mui/mui_component.py)

A `MUIComponent` is embedded as a tree.  Python attribute mutation becomes
state passing: `to_dict` returns both the serialized dict and the component
with the in-place mutations of `_process_props` applied.  The `_parent`
object reference is represented by the parent's `(type, unique_id)` — the
only data the code ever reads from it (breaking the child-to-parent cycle of
the heap representation).  The write-only collections `_special_props`,
`_child_components` and `_sent_components`, and the builder creation flags
`_is_prop`/`_skip_update`, are never read on any path modelled here and are
omitted.  Prop values are either opaque JSON primitives (carried as strings)
or nested components. -/

mutual

inductive MUIComponent where
  | mk : (ty : String) → (uid : Nat) → (module : String) → (props : MUIProps) →
      (children : MUIChildren) → (text_content : Option String) →
      (parentRef : Option (String × Nat)) → (parent_id : Option String) →
      (prop_key : Option String) → (is_prop_component : Bool) → MUIComponent

inductive MUIProps where
  | nil : MUIProps
  | cons : (key : String) → (v : MUIPropValue) → (rest : MUIProps) → MUIProps

inductive MUIPropValue where
  | prim : String → MUIPropValue
  | comp : MUIComponent → MUIPropValue

inductive MUIChildren where
  | nil : MUIChildren
  | cons : MUIChild → MUIChildren → MUIChildren

inductive MUIChild where
  | textChild : (id : String) → (content : String) → (parentId : Option String) → MUIChild
  | comp : MUIComponent → MUIChild

end

def MUIComponent.ty : MUIComponent → String
  | .mk t _ _ _ _ _ _ _ _ _ => t

def MUIComponent.uid : MUIComponent → Nat
  | .mk _ u _ _ _ _ _ _ _ _ => u

def MUIComponent.module : MUIComponent → String
  | .mk _ _ m _ _ _ _ _ _ _ => m

def MUIComponent.props : MUIComponent → MUIProps
  | .mk _ _ _ ps _ _ _ _ _ _ => ps

def MUIComponent.children : MUIComponent → MUIChildren
  | .mk _ _ _ _ cs _ _ _ _ _ => cs

def MUIComponent.text_content : MUIComponent → Option String
  | .mk _ _ _ _ _ tc _ _ _ _ => tc

def MUIComponent.parentRef : MUIComponent → Option (String × Nat)
  | .mk _ _ _ _ _ _ pr _ _ _ => pr

def MUIComponent.parent_id : MUIComponent → Option String
  | .mk _ _ _ _ _ _ _ pid _ _ => pid

def MUIComponent.prop_key : MUIComponent → Option String
  | .mk _ _ _ _ _ _ _ _ pk _ => pk

def MUIComponent.is_prop_component : MUIComponent → Bool
  | .mk _ _ _ _ _ _ _ _ _ ipc => ipc

/-- The string id `"{type}_{unique_id}"` of a component. -/
def MUIComponent.dictId (c : MUIComponent) : String :=
  c.ty ++ "_" ++ toString c.uid

/-! Size measure for recursion over component trees; it counts only tree
structure, so the scalar-field mutations of `_process_props` preserve it. -/

mutual

def MUIComponent.csize : MUIComponent → Nat
  | .mk _ _ _ ps cs _ _ _ _ _ => 1 + ps.csize + cs.csize

def MUIProps.csize : MUIProps → Nat
  | .nil => 0
  | .cons _ v rest => 1 + v.csize + rest.csize

def MUIPropValue.csize : MUIPropValue → Nat
  | .prim _ => 0
  | .comp c => 1 + c.csize

def MUIChildren.csize : MUIChildren → Nat
  | .nil => 0
  | .cons c rest => 1 + c.csize + rest.csize

def MUIChild.csize : MUIChild → Nat
  | .textChild _ _ _ => 0
  | .comp c => 1 + c.csize

end

/-- The class attribute `MUIComponent._special_component_props`: the per-type
allow-list of named prop slots that stay denormalized into `props`. -/
def special_component_props (ty : String) : List String :=
  if ty = "CardHeader" then ["avatar", "action"]
  else if ty = "ListItem" then ["secondaryAction"]
  else if ty = "ListItemButton" then ["secondaryAction"]
  else []

/-- Python `self.type in self._special_component_props`. -/
def isSpecialComponentType (ty : String) : Bool :=
  ty = "CardHeader" || ty = "ListItem" || ty = "ListItemButton"

/-! ### Serialized component dicts

The dict produced by `to_dict` (and further mutated by the builder):
`{type, id, module, props, parentId, content?, children?}`.  A missing
`content`/`children` key is `none`. -/

mutual

inductive ComponentDict where
  | mk : (ty : String) → (id : String) → (module : String) → (props : PropsOut) →
      (parentId : Option String) → (content : Option String) →
      (children : Option ChildrenOut) → ComponentDict

inductive PropsOut where
  | nil : PropsOut
  | cons : (key : String) → (v : PropOut) → (rest : PropsOut) → PropsOut

inductive PropOut where
  | prim : String → PropOut
  | compDict : ComponentDict → PropOut

inductive ChildrenOut where
  | nil : ChildrenOut
  | cons : ChildOut → ChildrenOut → ChildrenOut

inductive ChildOut where
  | textOut : (id : String) → (content : String) → (parentId : String) → ChildOut
  | compOut : ComponentDict → ChildOut

end

def ComponentDict.ty : ComponentDict → String
  | .mk t _ _ _ _ _ _ => t

def ComponentDict.id : ComponentDict → String
  | .mk _ i _ _ _ _ _ => i

def ComponentDict.props : ComponentDict → PropsOut
  | .mk _ _ _ ps _ _ _ => ps

def ComponentDict.parentId : ComponentDict → Option String
  | .mk _ _ _ _ pid _ _ => pid

def ComponentDict.content : ComponentDict → Option String
  | .mk _ _ _ _ _ c _ => c

def ComponentDict.children : ComponentDict → Option ChildrenOut
  | .mk _ _ _ _ _ _ ch => ch

/-- Python `component_dict["parentId"] = pid`. -/
def ComponentDict.setParentId : ComponentDict → String → ComponentDict
  | .mk t i m ps _ c ch, pid => .mk t i m ps (some pid) c ch

/-- Python `component_dict["content"] = txt`. -/
def ComponentDict.setContent : ComponentDict → String → ComponentDict
  | .mk t i m ps pid _ ch, txt => .mk t i m ps pid (some txt) ch

/-- Python `component_dict["props"] = ps`. -/
def ComponentDict.setProps : ComponentDict → PropsOut → ComponentDict
  | .mk t i m _ pid c ch, ps => .mk t i m ps pid c ch

/-- Python `if "children" not in component_dict: component_dict["children"] = []`. -/
def ComponentDict.ensureChildren : ComponentDict → ComponentDict
  | .mk t i m ps pid c none => .mk t i m ps pid c (some .nil)
  | d => d

/-- Python `component_dict["children"].append(ch)` (children key present). -/
def ChildrenOut.append : ChildrenOut → ChildOut → ChildrenOut
  | .nil, ch => .cons ch .nil
  | .cons c rest, ch => .cons c (rest.append ch)

def ComponentDict.appendChild : ComponentDict → ChildOut → ComponentDict
  | .mk t i m ps pid c ch, out => .mk t i m ps pid c (some ((ch.getD .nil).append out))

/-- The `id` of a serialized child entry (`item.get('id')`). -/
def ChildOut.entryId : ChildOut → String
  | .textOut i _ _ => i
  | .compOut d => d.id

/-- `MUIBuilder._component_exists_in_array`: whether the children array already
holds an entry with the same id. -/
def ChildrenOut.existsId : ChildrenOut → String → Bool
  | .nil, _ => false
  | .cons c rest, i => c.entryId = i || rest.existsId i

/-- The ids in a serialized children array, in order. -/
def ChildrenOut.ids : ChildrenOut → List String
  | .nil => []
  | .cons c rest => c.entryId :: rest.ids

/-- The ids in the children array of a serialized component dict. -/
def ComponentDict.childIds (d : ComponentDict) : List String :=
  (d.children.getD .nil).ids

/-- The keys of a serialized props dict, in order. -/
def PropsOut.keys : PropsOut → List String
  | .nil => []
  | .cons k _ rest => k :: rest.keys

/-- Lookup in a serialized props dict. -/
def PropsOut.lookup : PropsOut → String → Option PropOut
  | .nil, _ => none
  | .cons k v rest, key => if k = key then some v else rest.lookup key

/-- Python `d[key] = v` on a serialized props dict. -/
def PropsOut.insert : PropsOut → String → PropOut → PropsOut
  | .nil, key, v => .cons key v .nil
  | .cons k w rest, key, v =>
    if k = key then .cons k v rest else .cons k w (rest.insert key v)

/-- Lookup in a component's props (`props[key]` / `key in props`). -/
def MUIProps.lookup : MUIProps → String → Option MUIPropValue
  | .nil, _ => none
  | .cons k v rest, key => if k = key then some v else rest.lookup key

/-- The keys of a component's props, in order. -/
def MUIProps.keys : MUIProps → List String
  | .nil => []
  | .cons k _ rest => k :: rest.keys

/-- Python `if value.props:` — an empty props dict is falsy. -/
def MUIProps.isEmpty : MUIProps → Bool
  | .nil => true
  | .cons _ _ _ => false

/-- Python `if value.children:` — an empty children list is falsy. -/
def MUIChildren.isEmpty : MUIChildren → Bool
  | .nil => true
  | .cons _ _ => false

/-- The in-place mutations `_process_props` performs on a prop component
before serializing it: `value._parent = self`, `value._parent_id = "{type}_{id}"`,
`value._is_prop_component = True`, `value._prop_key = key`. -/
def setPropComponentFields (selfTy : String) (selfUid : Nat) (key : String) :
    MUIComponent → MUIComponent
  | .mk t u m ps cs tc _ _ _ _ =>
    .mk t u m ps cs tc (some (selfTy, selfUid))
      (some (selfTy ++ "_" ++ toString selfUid)) (some key) true

theorem csize_setPropComponentFields (selfTy : String) (selfUid : Nat) (key : String)
    (c : MUIComponent) :
    (setPropComponentFields selfTy selfUid key c).csize = c.csize := by
  cases c
  rfl

/-- Python `hasattr(child, '_prop_key') and child._prop_key in special[self.type]`
guarded by `self.type in self._special_component_props` — the filter `to_dict`
applies to the children list. -/
def childIsSpecialProp (selfTy : String) (c : MUIComponent) : Bool :=
  match c.prop_key with
  | some pk => isSpecialComponentType selfTy && pk ∈ special_component_props selfTy
  | none => false

/-! `MUIComponent.to_dict` and its two loops, as state-passing functions:
the first result is the component with the in-place mutations applied, the
second the produced output.  `_process_props` runs first (the `data` dict
literal evaluates it), the children serialization after. -/

mutual

def MUIComponent.to_dict : MUIComponent → MUIComponent × ComponentDict
  | .mk ty uid module ps cs tc pr pid pk ipc =>
    let component_id := ty ++ "_" ++ toString uid
    let parent_id := pr.map (fun p => p.1 ++ "_" ++ toString p.2)
    let psOut := processPropsStep ty uid ps
    let csOut := serializeChildrenStep ty component_id cs
    (.mk ty uid module psOut.1 csOut.1 tc pr pid pk ipc,
      .mk ty component_id module psOut.2 parent_id tc
        (match csOut.2 with | .nil => none | co => some co))
termination_by c => c.csize
decreasing_by
  all_goals simp [MUIComponent.csize, MUIProps.csize, MUIPropValue.csize,
    MUIChildren.csize, MUIChild.csize, csize_setPropComponentFields]
  all_goals try omega

def processPropsStep (selfTy : String) (selfUid : Nat) : MUIProps → MUIProps × PropsOut
  | .nil => (.nil, .nil)
  | .cons key (.prim s) rest =>
    let restOut := processPropsStep selfTy selfUid rest
    (.cons key (.prim s) restOut.1, .cons key (.prim s) restOut.2)
  | .cons key (.comp c) rest =>
    let c1 := setPropComponentFields selfTy selfUid key c
    let cOut := c1.to_dict
    let restOut := processPropsStep selfTy selfUid rest
    (.cons key (.comp cOut.1) restOut.1, .cons key (.compDict cOut.2) restOut.2)
termination_by ps => ps.csize
decreasing_by
  all_goals simp [MUIComponent.csize, MUIProps.csize, MUIPropValue.csize,
    MUIChildren.csize, MUIChild.csize, csize_setPropComponentFields]
  all_goals try omega

def serializeChildrenStep (selfTy : String) (componentId : String) :
    MUIChildren → MUIChildren × ChildrenOut
  | .nil => (.nil, .nil)
  | .cons (.textChild i content pid) rest =>
    let restOut := serializeChildrenStep selfTy componentId rest
    (.cons (.textChild i content pid) restOut.1,
      .cons (.textOut i content componentId) restOut.2)
  | .cons (.comp c) rest =>
    if childIsSpecialProp selfTy c then
      let restOut := serializeChildrenStep selfTy componentId rest
      (.cons (.comp c) restOut.1, restOut.2)
    else
      let cOut := c.to_dict
      let restOut := serializeChildrenStep selfTy componentId rest
      (.cons (.comp cOut.1) restOut.1,
        .cons (.compOut (cOut.2.setParentId componentId)) restOut.2)
termination_by cs => cs.csize
decreasing_by
  all_goals simp [MUIComponent.csize, MUIProps.csize, MUIPropValue.csize,
    MUIChildren.csize, MUIChild.csize, csize_setPropComponentFields]
  all_goals try omega

end

theorem MUIComponent.props_csize_lt (c : MUIComponent) : c.props.csize < c.csize := by
  cases c
  simp [MUIComponent.csize, MUIComponent.props]
  try omega

theorem MUIComponent.children_csize_lt (c : MUIComponent) : c.children.csize < c.csize := by
  cases c
  simp [MUIComponent.csize, MUIComponent.children]
  try omega

/-! The in-place mutations of `to_dict` do not change the tree structure of a
component, only its scalar bookkeeping fields; in particular `csize` is
preserved.  Needed to justify termination of the builder functions below. -/

mutual

theorem to_dict_csize (c : MUIComponent) : (c.to_dict.1).csize = c.csize := by
  cases c with
  | mk ty uid module ps cs tc pr pid pk ipc =>
    simp [MUIComponent.to_dict, MUIComponent.csize,
      processPropsStep_csize ty uid ps,
      serializeChildrenStep_csize ty (ty ++ "_" ++ toString uid) cs]
termination_by c.csize
decreasing_by
  all_goals simp [MUIComponent.csize, MUIProps.csize, MUIPropValue.csize,
    MUIChildren.csize, MUIChild.csize]
  all_goals try omega

theorem processPropsStep_csize (selfTy : String) (selfUid : Nat) (ps : MUIProps) :
    ((processPropsStep selfTy selfUid ps).1).csize = ps.csize := by
  cases ps with
  | nil => simp [processPropsStep, MUIProps.csize]
  | cons key v rest =>
    cases v with
    | prim s =>
      simp [processPropsStep, MUIProps.csize, MUIPropValue.csize,
        processPropsStep_csize selfTy selfUid rest]
    | comp c =>
      simp [processPropsStep, MUIProps.csize, MUIPropValue.csize,
        processPropsStep_csize selfTy selfUid rest,
        to_dict_csize (setPropComponentFields selfTy selfUid key c),
        csize_setPropComponentFields]
termination_by ps.csize
decreasing_by
  all_goals simp [MUIComponent.csize, MUIProps.csize, MUIPropValue.csize,
    MUIChildren.csize, MUIChild.csize, csize_setPropComponentFields]
  all_goals try omega

theorem serializeChildrenStep_csize (selfTy : String) (componentId : String)
    (cs : MUIChildren) : ((serializeChildrenStep selfTy componentId cs).1).csize = cs.csize := by
  cases cs with
  | nil => simp [serializeChildrenStep, MUIChildren.csize]
  | cons ch rest =>
    cases ch with
    | textChild i content pid =>
      simp [serializeChildrenStep, MUIChildren.csize, MUIChild.csize,
        serializeChildrenStep_csize selfTy componentId rest]
    | comp c =>
      by_cases hsp : childIsSpecialProp selfTy c = true
      · simp [serializeChildrenStep, hsp, MUIChildren.csize, MUIChild.csize,
          serializeChildrenStep_csize selfTy componentId rest]
      · simp [serializeChildrenStep, hsp, MUIChildren.csize, MUIChild.csize,
          serializeChildrenStep_csize selfTy componentId rest, to_dict_csize c]
termination_by cs.csize
decreasing_by
  all_goals simp [MUIComponent.csize, MUIProps.csize, MUIPropValue.csize,
    MUIChildren.csize, MUIChild.csize, csize_setPropComponentFields]
  all_goals try omega

end

/-! ## Builder record construction (mui/mui_builder.py)

`MUIBuilder._build_complete_component_structure(component_dict, props)`
mutates the dict produced by `to_dict` and re-serializes the prop components.
Python appends `prop_dict` to `component_dict["children"]` by reference and
mutates it afterwards; in the tree embedding the fully mutated prop dict is
appended instead, which yields the same final dict (the membership check only
reads ids, which never change). -/

/-- The same Python object keeping its identity while its props dict values
are mutated in place (`value.props` after the recursive builder call). -/
def MUIComponent.setProps : MUIComponent → MUIProps → MUIComponent
  | .mk t u m _ cs tc pr pid pk ipc, ps => .mk t u m ps cs tc pr pid pk ipc

/-- The same Python object keeping its identity while entries of its children
list are mutated in place. -/
def MUIComponent.setChildren : MUIComponent → MUIChildren → MUIComponent
  | .mk t u m ps _ tc pr pid pk ipc, cs => .mk t u m ps cs tc pr pid pk ipc

/-- In-place mutation of the component object stored under an existing props
key (the dict keeps the reference, the object's state changed). -/
def MUIProps.updateValue : MUIProps → String → MUIPropValue → MUIProps
  | .nil, _, _ => .nil
  | .cons k w rest, key, v =>
    if k = key then .cons k v rest else .cons k w (rest.updateValue key v)

/-- The loop `for key in special_prop_keys: ... component_dict["props"][key] =
props[key].to_dict()` run after the main loop of
`_build_complete_component_structure`. -/
def specialAssign (d : ComponentDict) (ps : MUIProps) : List String → ComponentDict × MUIProps
  | [] => (d, ps)
  | key :: keys =>
    match ps.lookup key with
    | some (.comp c) =>
      let cOut := c.to_dict
      let d1 := d.setProps (d.props.insert key (.compDict cOut.2))
      let ps1 := ps.updateValue key (.comp cOut.1)
      specialAssign d1 ps1 keys
    | _ => specialAssign d ps keys

/-- The final filtering of `_build_complete_component_structure`: keep
primitive props and (re-serialized) special component props, drop the
non-special component props. -/
def filterPropsStep (specialKeys : List String) : MUIProps → MUIProps × PropsOut
  | .nil => (.nil, .nil)
  | .cons key (.prim s) rest =>
    let restOut := filterPropsStep specialKeys rest
    (.cons key (.prim s) restOut.1, .cons key (.prim s) restOut.2)
  | .cons key (.comp c) rest =>
    if key ∈ specialKeys then
      let cOut := c.to_dict
      let restOut := filterPropsStep specialKeys rest
      (.cons key (.comp cOut.1) restOut.1, .cons key (.compDict cOut.2) restOut.2)
    else
      let restOut := filterPropsStep specialKeys rest
      (.cons key (.comp c) restOut.1, restOut.2)

/-- The `if value.children:` block of the main loop: serialize each component
child into the prop dict's children (deduplicated by id, reparented to the
prop dict), and restamp stored text-child dicts with the prop dict's id. -/
def appendValueChildren (pd : ComponentDict) : MUIChildren → ComponentDict × MUIChildren
  | .nil => (pd, .nil)
  | .cons (.comp ch) rest =>
    let chOut := ch.to_dict
    let cd := chOut.2.setParentId pd.id
    let pd1 := if (pd.children.getD .nil).existsId cd.id then pd else pd.appendChild (.compOut cd)
    let restOut := appendValueChildren pd1 rest
    (restOut.1, .cons (.comp chOut.1) restOut.2)
  | .cons (.textChild i content _) rest =>
    let pd1 := if (pd.children.getD .nil).existsId i then pd
               else pd.appendChild (.textOut i content pd.id)
    let restOut := appendValueChildren pd1 rest
    (restOut.1, .cons (.textChild i content (some pd.id)) restOut.2)

/-- The `if value.text_content is not None:` block of the main loop: ensure a
children key on the prop dict, add the text-content dict (deduplicated by
id), and set the prop dict's `content`. -/
def propDictWithText (pd1 : ComponentDict) (c1 : MUIComponent) : ComponentDict :=
  match c1.text_content with
  | some txt =>
    let text_id := "text_" ++ toString c1.uid
    let pdc := pd1.ensureChildren
    let pdc2 := if (pdc.children.getD .nil).existsId text_id then pdc
                else pdc.appendChild (.textOut text_id txt pd1.id)
    pdc2.setContent txt
  | none => pd1

/-- The `if value.children:` block of the main loop (see
`appendValueChildren`); an empty children list is falsy and skipped. -/
def propDictChildren (pd3 : ComponentDict) (c2 : MUIComponent) :
    ComponentDict × MUIChildren :=
  if c2.children.isEmpty then (pd3, c2.children)
  else appendValueChildren pd3.ensureChildren c2.children

mutual

def MUIBuilder.build_complete_component_structure (d : ComponentDict) (ps : MUIProps) :
    ComponentDict × MUIProps :=
  let d0 := d.ensureChildren
  let special_prop_keys := special_component_props d.ty
  let lp := buildCompleteLoop d0 ps
  let sa := if special_prop_keys.isEmpty then (lp.1, lp.2)
            else specialAssign lp.1 lp.2 special_prop_keys
  let fp := filterPropsStep special_prop_keys sa.2
  (sa.1.setProps fp.2, fp.1)
termination_by 3 * ps.csize + 2
decreasing_by
  all_goals simp
  all_goals try omega

def buildCompleteLoop (d : ComponentDict) : MUIProps → ComponentDict × MUIProps
  | .nil => (d, .nil)
  | .cons key (.prim s) rest =>
    let restOut := buildCompleteLoop d rest
    (restOut.1, .cons key (.prim s) restOut.2)
  | .cons key (.comp c) rest =>
    let pc := processPropComponent d key c
    let is_special_prop := key ∈ special_component_props d.ty
    let d1 := if !is_special_prop && !((d.children.getD .nil).existsId pc.1.id) then
                d.appendChild (.compOut pc.1)
              else d
    let restOut := buildCompleteLoop d1 rest
    (restOut.1, .cons key (.comp pc.2) restOut.2)
termination_by ps => 3 * ps.csize + 1
decreasing_by
  all_goals simp [MUIProps.csize, MUIPropValue.csize]
  all_goals try omega

def processPropComponent (d : ComponentDict) (key : String) (c : MUIComponent) :
    ComponentDict × MUIComponent :=
  let cOut := c.to_dict
  let c1 := cOut.1
  let pd1 := cOut.2.setParentId d.id
  let pd2 := propDictWithText pd1 c1
  let recOut := propDictRec pd2 c1
  let c2 := c1.setProps recOut.2
  let chOut := propDictChildren recOut.1 c2
  (chOut.1, c2.setChildren chOut.2)
termination_by 3 * c.csize + 6
decreasing_by
  all_goals simp
  all_goals try omega
  rw [to_dict_csize c]
  omega

def propDictRec (pd2 : ComponentDict) (c1 : MUIComponent) : ComponentDict × MUIProps :=
  if c1.props.isEmpty then (pd2, c1.props)
  else MUIBuilder.build_complete_component_structure pd2 c1.props
termination_by 3 * c1.csize + 5
decreasing_by
  all_goals simp
  all_goals try omega
  have h1 := MUIComponent.props_csize_lt c1
  omega

end

/-- The `component_update` record `MUIBuilder.create_component` emits for a
root component (empty builder stack): `component_dict = component.to_dict()`
followed in place by
`_build_complete_component_structure(component_dict, processed_props)`, where
`processed_props` is the same dict object as `component.props`; the record
sent to the coordinator carries all these mutations. -/
def MUIBuilder.emittedRecord (c : MUIComponent) : ComponentDict :=
  let cOut := c.to_dict
  (MUIBuilder.build_complete_component_structure cOut.2 cOut.1.props).1

/-! ## Concrete inputs used by counterexamples and witnesses -/

/-- A chunk whose payload is not a file-change event. -/
def eventsChunk : Chunk :=
  { payload := { ptype := some "events", fileEvent := none, rest := [] }, rest := [] }

/-- The complete one-chunk record whose chunk is not a file-change payload. -/
def nonFileEntry : ChunkEntry :=
  { total_chunks := 1, received_chunks := [0], data := [(0, eventsChunk)],
    sender_id := "s1", timestamp := 0 }

/-- The same tracker, as a whole. -/
def completeNonFileTracker : ChunkTracker :=
  { chunks := [("m1", nonFileEntry)], lastActivity := [("m1", 0)] }

/-- A file-change chunk carrying the given base64 fragment. -/
def fileChunk (s : String) : Chunk :=
  { payload := { ptype := some "file-change", fileEvent := some { data := s, rest := [] }, rest := [] },
    rest := [] }

/-- The chunk with the given index of a file-upload split into per-index
fragments (fragment `i` carries the text `frag<i>.`). -/
def fragChunk (i : Nat) : Chunk := fileChunk ("frag" ++ toString i ++ ".")

/-- Reassembled logical frame: the first chunk with its `fileEvent.data`
replaced by the concatenation of all the fragments. -/
def reassembledFrom (first : Chunk) (fe0 : FileEvent) (fes : List FileEvent) : Chunk :=
  let fe : FileEvent := { fe0 with data := String.join (fes.map FileEvent.data) }
  { first with payload := { first.payload with fileEvent := some fe } }

/-- Feeding a list of `(chunk_index, chunk_data)` arrivals for one message id
through `add_chunk`, in order. -/
def ChunkTracker.addChunks (t : ChunkTracker) (message_id : String) (total_chunks : Nat)
    (sender_id : String) (now : Nat) (arrivals : List (Nat × Chunk)) : ChunkTracker :=
  arrivals.foldl (fun acc p =>
    (acc.add_chunk message_id p.1 total_chunks p.2 sender_id now).2) t

/-- The in-order arrival sequence of an `n`-chunk transfer with chunk `i`
carrying `f i`. -/
def chunksInOrder (n : Nat) (f : Nat → Chunk) : List (Nat × Chunk) :=
  (List.range n).map (fun i => (i, f i))

/-- The serialized payload used as the C1 failing input: 1,000,001 bytes. -/
def oversizedMessage : String := String.mk (List.replicate 1000001 'a')

/-- The manager state after registering client `c1` on a fresh manager. -/
def mgrWithC1 : ConnectionManager := { clients := [("c1", 7)], connection_count := 1 }

/-- An icon component used as a prop value (`mui.Box(icon=some_icon)`):
already marked by the builder's `_process_props` with `_is_prop`/`_prop_key`
(the creation-time flags are not read by the serialization modelled here). -/
def exIcon : MUIComponent :=
  .mk "Star" 1 "muiIcons" .nil .nil none none none (some "icon") false

/-- A `Box` node (its type has no structural-child-slot allow-list) holding
`exIcon` as the named prop `icon` and one text child. -/
def exBox : MUIComponent :=
  .mk "Box" 2 "muiElements" (.cons "icon" (.comp exIcon) .nil)
    (.cons (.textChild "text_2_0" "hello" none) .nil) none none none none false

/-- A coordinator state paired with sender `a` holding some session data. -/
def payloadA1 : EventsPayload :=
  { formEvents := [("field1", { value := some "v1", rest := [] })],
    fileEvent := none, key := none, rest := [] }

/-- A coordinator state paired with sender `a` holding some session data. -/
def pairedStateA : EventBase :=
  { EventBase.init with
    sender_id := some "a",
    paired := true,
    caller_file := some "script.py",
    state := [("page", "3")],
    events := [(some "field1", .fromForm "v1")],
    events_store := [("payload", payloadA1)] }

/-- A second Event Record from sender `a` carrying one form value. -/
def payloadA2 : EventsPayload :=
  { formEvents := [("field2", { value := some "v2", rest := [] })],
    fileEvent := none, key := none, rest := [] }

/-- A second Event Record from sender `a` carrying one form value. -/
def msgA2 : InboundMessage :=
  { mtype := some "events", sender_id := some "a", client_id := some "cl1",
    payload := payloadA2 }

/-- An Event Record from the different sender `b`. -/
def payloadB : EventsPayload :=
  { formEvents := [("field3", { value := some "v3", rest := [] })],
    fileEvent := none, key := none, rest := [] }

/-- An Event Record from the different sender `b`. -/
def msgB : InboundMessage :=
  { mtype := some "events", sender_id := some "b", client_id := some "cl2",
    payload := payloadB }

/-- A complete two-chunk file-change transfer record whose chunks arrived out
of order (index 1 first). -/
def fcEntry : ChunkEntry :=
  { total_chunks := 2, received_chunks := [1, 0],
    data := [(1, fragChunk 1), (0, fragChunk 0)], sender_id := "s2", timestamp := 0 }

/-- A tracker holding only the complete file-change transfer `m2`. -/
def fcTracker : ChunkTracker :=
  { chunks := [("m2", fcEntry)], lastActivity := [("m2", 5)] }

/-- The tracker state reached by feeding one message id its chunks: a single
record holding the received indices and the data in arrival order. -/
def singleEntryTracker (mid : String) (total : Nat) (sender : String) (now : Nat)
    (recv : List Nat) (dat : List (Nat × Chunk)) : ChunkTracker :=
  let e : ChunkEntry :=
    { total_chunks := total, received_chunks := recv, data := dat,
      sender_id := sender, timestamp := now }
  { chunks := [(mid, e)], lastActivity := [(mid, now)] }

/-- The retrieval result of a complete `n`-chunk transfer whose index-`i`
chunk is `f i`, written as a function of the logical contents only — the
canonical form both arrival orders reduce to. -/
def reassembleOf (n : Nat) (f : Nat → Chunk) (sender : String) : GetResult :=
  match (List.range n).map f with
  | [] => .err
  | first :: _ =>
    match first.payload.fileEvent with
    | some fe0 =>
      if first.payload.ptype = some "file-change" then
        match ((List.range n).map f).mapM (fun c => c.payload.fileEvent) with
        | none => .err
        | some fes => .ok (reassembledFrom first fe0 fes) sender
      else .noneRes
    | none => .noneRes

/-- The `(key, value)` entries of a props dict, in order. -/
def MUIProps.entries : MUIProps → List (String × MUIPropValue)
  | .nil => []
  | .cons k v rest => (k, v) :: rest.entries

/-- The component values among the props, in order. -/
def MUIProps.compValues : MUIProps → List MUIComponent
  | .nil => []
  | .cons _ (.prim _) rest => rest.compValues
  | .cons _ (.comp c) rest => c :: rest.compValues

/-- The ids the children list entries serialize under: a stored text dict's
id, or a component child's `"{type}_{unique_id}"`. -/
def MUIChildren.entryIds : MUIChildren → List String
  | .nil => []
  | .cons (.textChild i _ _) rest => i :: rest.entryIds
  | .cons (.comp c) rest => c.dictId :: rest.entryIds

/-! ## Claim theorems -/

/-- Helper for C5: when every attempt in the remaining window fails, the
retry loop consumes the whole window and ends in the terminal error. -/
theorem connectLoop_all_fail (cfg : WebSocketConfig) (fails : Nat → Bool) :
    ∀ (r a d : Nat) (ds : List ℚ), (∀ k, a ≤ k → k < a + r → fails k = true) →
    (connectLoop cfg fails r a d ds).attempts = d + r ∧
    (connectLoop cfg fails r a d ds).isError = true := by
  intro r
  induction r with
  | zero =>
    intro a d ds h
    simp [connectLoop, ConnectOutcome.attempts, ConnectOutcome.isError]
  | succ n ih =>
    intro a d ds h
    have hfa : fails a = true := h a le_rfl (by omega)
    have hrest := ih (a + 1) (d + 1) (if 0 < a then backoffDelay cfg a :: ds else ds)
      (fun k hk1 hk2 => h k (by omega) (by omega))
    simp only [connectLoop, hfa, if_true]
    exact ⟨by rw [hrest.1]; omega, hrest.2⟩

/-- C5: with the client not already connected and every connection attempt
failing, `WebSocketClient.connect` performs exactly `retry_max_attempts`
attempts (not one more) and then raises the terminal
`ConnectionError("Max retry attempts reached")`. -/
theorem connect_exhausts_retry_max_attempts (cfg : WebSocketConfig) (fails : Nat → Bool)
    (hall : ∀ k, k < cfg.retry_max_attempts → fails k = true) :
    (WebSocketClient.connect false cfg fails).attempts = cfg.retry_max_attempts ∧
    (WebSocketClient.connect false cfg fails).isError = true := by
  have h := connectLoop_all_fail cfg fails cfg.retry_max_attempts 0 0 []
    (fun k hk1 hk2 => hall k (by omega))
  simpa [WebSocketClient.connect] using h

/-- Witness for C5: with the default configuration (5 attempts) and an
unreachable server, connect makes exactly 5 attempts and raises. -/
theorem connect_exhausts_retry_max_attempts_witness :
    (∀ k, k < WebSocketConfig.default.retry_max_attempts → (fun _ => true) k = true) ∧
    (WebSocketClient.connect false WebSocketConfig.default (fun _ => true)).attempts = 5 ∧
    (WebSocketClient.connect false WebSocketConfig.default (fun _ => true)).isError = true := by
  refine ⟨fun k _ => rfl, ?_, ?_⟩
  · exact (connect_exhausts_retry_max_attempts WebSocketConfig.default
      (fun _ => true) (fun k _ => rfl)).1
  · exact (connect_exhausts_retry_max_attempts WebSocketConfig.default
      (fun _ => true) (fun k _ => rfl)).2

/-- C6: for nonnegative base and maximum delays, the backoff delay computed by
the Transport Client equals `min(base * 2 ^ attempt, max_delay)`, never
exceeds `max_delay`, and is monotonically non-decreasing in the attempt. -/
theorem backoff_delay_formula_capped_monotone (cfg : WebSocketConfig)
    (hb : 0 ≤ cfg.retry_base_delay) (hM : 0 ≤ cfg.retry_max_delay)
    (k l : Nat) (hkl : k ≤ l) :
    backoffDelay cfg k = min (cfg.retry_base_delay * 2 ^ k) cfg.retry_max_delay ∧
    backoffDelay cfg k ≤ cfg.retry_max_delay ∧
    backoffDelay cfg k ≤ backoffDelay cfg l := by
  refine ⟨rfl, min_le_right _ _, ?_⟩
  unfold backoffDelay
  exact min_le_min
    (mul_le_mul_of_nonneg_left (pow_le_pow_right₀ (by norm_num) hkl) hb) le_rfl

/-- Witness for C6 at the default configuration and attempts 3 ≤ 7. -/
theorem backoff_delay_formula_capped_monotone_witness :
    0 ≤ WebSocketConfig.default.retry_base_delay ∧
    0 ≤ WebSocketConfig.default.retry_max_delay ∧
    3 ≤ 7 ∧
    (backoffDelay WebSocketConfig.default 3 =
        min (WebSocketConfig.default.retry_base_delay * 2 ^ 3)
          WebSocketConfig.default.retry_max_delay ∧
      backoffDelay WebSocketConfig.default 3 ≤ WebSocketConfig.default.retry_max_delay ∧
      backoffDelay WebSocketConfig.default 3 ≤ backoffDelay WebSocketConfig.default 7) := by
  have hb : (0 : ℚ) ≤ WebSocketConfig.default.retry_base_delay := by
    norm_num [WebSocketConfig.default]
  have hM : (0 : ℚ) ≤ WebSocketConfig.default.retry_max_delay := by
    norm_num [WebSocketConfig.default]
  exact ⟨hb, hM, by omega,
    backoff_delay_formula_capped_monotone WebSocketConfig.default hb hM 3 7 (by omega)⟩

/-- Unfolding lemma for the warning flag of the send effect. -/
theorem send_largeMessageWarning_eq (s : String) :
    (WebSocketClient.send s).largeMessageWarning = decide (THRESHOLD < s.length) := rfl

/-- C1 (the code at the failing input): a serialized payload of 1,000,001
bytes exceeds the 1,000,000-byte chunking threshold, yet `send` only logs the
oversize warning and writes the whole serialized payload to the socket as one
single frame — no chunk frames are produced. -/
theorem send_writes_oversized_payload_as_single_frame :
    THRESHOLD < oversizedMessage.length ∧
    (WebSocketClient.send oversizedMessage).largeMessageWarning = true ∧
    (WebSocketClient.send oversizedMessage).framesWritten = [oversizedMessage] := by
  have hlen : oversizedMessage.length = 1000001 := by
    show (List.replicate 1000001 'a').length = 1000001
    rw [List.length_replicate]
  refine ⟨?_, ?_, rfl⟩
  · rw [hlen]
    norm_num [THRESHOLD]
  · rw [send_largeMessageWarning_eq, hlen, decide_eq_true_eq]
    norm_num [THRESHOLD]

/-- C3 (the code at the failing input): a failing transport send is absorbed
and logged when a transport client exists, but with no transport client the
coordinator calls `self.queue_message(payload)`, which is defined nowhere on
`EventBase`, so `AttributeError` propagates to the caller instead of the
payload being queued. -/
theorem send_response_sync_raises_without_client :
    EventBase.send_response_sync true true = .ok .sendFailureLogged ∧
    EventBase.send_response_sync true false = .ok .sent ∧
    EventBase.methodNames.contains "queue_message" = false ∧
    EventBase.instanceAttributeNames.contains "queue_message" = false ∧
    EventBase.send_response_sync false true =
      .error "AttributeError: EventBase object has no attribute queue_message" ∧
    EventBase.send_response_sync false false =
      .error "AttributeError: EventBase object has no attribute queue_message" := by
  refine ⟨rfl, rfl, by decide, by decide, rfl, rfl⟩

/-- C10 (the code at the failing input): registering a fresh client succeeds
and keeps the count in step, but calling `add_client` again for the same
client id invokes `remove_client` while `self._lock` is already held; the
non-reentrant `threading.Lock` can never be re-acquired by the same thread,
so the call blocks forever instead of removing and re-adding the entry. -/
theorem add_client_reregistration_deadlocks :
    ConnectionManager.add_client false ConnectionManager.empty "c1" 7 100 =
      some (mgrWithC1, true) ∧
    ConnectionManager.add_client false mgrWithC1 "c1" 8 100 = none ∧
    ConnectionManager.remove_client true mgrWithC1 "c1" = none := by
  refine ⟨by decide, by decide, rfl⟩

/-- C4 counterexample: a transfer that is complete (1 of 1 chunk indices
received) but whose first chunk is not a file-change payload; retrieving the
complete message returns `None` and the transfer record is NOT deleted from
the tracker, contradicting the unconditional reassemble-and-delete claim. -/
theorem complete_transfer_neither_reassembled_nor_deleted :
    completeNonFileTracker.is_complete "m1" = true ∧
    completeNonFileTracker.get_complete_message "m1" = (.noneRes, completeNonFileTracker) := by
  refine ⟨by decide, by decide⟩

/-- C4 amended: a transfer record in the tracker is complete exactly when the
number of received chunk indices equals its `total_chunks`; retrieving the
complete message of a complete transfer whose chunks carry a file-change
payload reassembles them in ascending `chunk_index` order into one logical
frame and deletes the record from the tracker.  (For a complete transfer of
any other payload shape, retrieval returns `None` and the record remains —
see the counterexample.) -/
theorem chunk_transfer_complete_iff_and_file_change_reassembly
    (t : ChunkTracker) (mid : String) (e : ChunkEntry) (first : Chunk)
    (rest : List Chunk) (fe0 : FileEvent) (fes : List FileEvent) :
    (t.is_complete mid = true ↔
      ∃ e2, dictLookup mid t.chunks = some e2 ∧
        e2.received_chunks.length = e2.total_chunks) ∧
    (dictLookup mid t.chunks = some e →
      e.received_chunks.length = e.total_chunks →
      (List.range e.total_chunks).mapM (fun i => dictLookup i e.data) =
        some (first :: rest) →
      first.payload.ptype = some "file-change" →
      first.payload.fileEvent = some fe0 →
      (first :: rest).mapM (fun c => c.payload.fileEvent) = some fes →
      t.get_complete_message mid =
        (.ok (reassembledFrom first fe0 fes) e.sender_id,
          { chunks := dictRemove mid t.chunks,
            lastActivity := dictRemove mid t.lastActivity })) := by
  constructor
  · unfold ChunkTracker.is_complete
    cases h : dictLookup mid t.chunks with
    | none => simp
    | some e2 => simp [beq_iff_eq]
  · intro hl hlen hmap hty hfe hfes
    have hic : t.is_complete mid = true := by
      unfold ChunkTracker.is_complete
      rw [hl]
      simp [hlen]
    simp only [ChunkTracker.get_complete_message, hic, hl, hmap, hty, hfe, hfes,
      reassembledFrom]
    simp

/-- Witness for the amended C4: the concrete transfer `m2` whose two
file-change chunks arrived out of order is complete, reassembles to the
fragments concatenated in index order, and its record is deleted. -/
theorem chunk_transfer_reassembly_witness :
    dictLookup "m2" fcTracker.chunks = some fcEntry ∧
    fcEntry.received_chunks.length = fcEntry.total_chunks ∧
    (List.range fcEntry.total_chunks).mapM (fun i => dictLookup i fcEntry.data) =
      some (fragChunk 0 :: [fragChunk 1]) ∧
    (fragChunk 0).payload.ptype = some "file-change" ∧
    (fragChunk 0).payload.fileEvent = some { data := "frag0.", rest := [] } ∧
    (fragChunk 0 :: [fragChunk 1]).mapM (fun c => c.payload.fileEvent) =
      some [{ data := "frag0.", rest := [] }, { data := "frag1.", rest := [] }] ∧
    fcTracker.get_complete_message "m2" =
      (.ok (reassembledFrom (fragChunk 0) { data := "frag0.", rest := [] }
            [{ data := "frag0.", rest := [] }, { data := "frag1.", rest := [] }])
          fcEntry.sender_id,
        { chunks := dictRemove "m2" fcTracker.chunks,
          lastActivity := dictRemove "m2" fcTracker.lastActivity }) := by
  refine ⟨by decide, by decide, by decide, by decide, by decide, by decide, ?_⟩
  exact (chunk_transfer_complete_iff_and_file_change_reassembly fcTracker "m2" fcEntry
    (fragChunk 0) [fragChunk 1] { data := "frag0.", rest := [] }
    [{ data := "frag0.", rest := [] }, { data := "frag1.", rest := [] }]).2
    (by decide) (by decide) (by decide) (by decide) (by decide) (by decide)

/-! ### Dictionary lemmas used by the coordinator claims -/

theorem dictLookup_update_self {κ α : Type} [DecidableEq κ] (k : κ) (v : α) :
    ∀ m : List (κ × α), m.any (fun p => p.1 = k) = true →
    dictLookup k (m.map (fun p => if p.1 = k then (k, v) else p)) = some v := by
  intro m
  induction m with
  | nil => intro h; simp at h
  | cons p rest ih =>
    intro h
    by_cases hp : p.1 = k
    · simp [dictLookup, hp]
    · have hrest : rest.any (fun p => p.1 = k) = true := by
        simp only [List.any_cons, Bool.or_eq_true, decide_eq_true_eq] at h
        exact h.resolve_left hp
      simp only [List.map_cons, if_neg hp, dictLookup, if_neg hp]
      exact ih hrest

theorem dictLookup_update_other {κ α : Type} [DecidableEq κ] (k k2 : κ) (v : α)
    (hne : k ≠ k2) : ∀ m : List (κ × α),
    dictLookup k (m.map (fun p => if p.1 = k2 then (k2, v) else p)) = dictLookup k m := by
  intro m
  induction m with
  | nil => simp
  | cons p rest ih =>
    by_cases hp2 : p.1 = k2
    · have hp : ¬ p.1 = k := by rw [hp2]; exact fun hh => hne hh.symm
      simp only [List.map_cons, if_pos hp2, dictLookup, if_neg hp,
        if_neg (fun hh => hne hh.symm : ¬ (k2 : κ) = k)]
      exact ih
    · simp only [List.map_cons, if_neg hp2, dictLookup]
      by_cases hp : p.1 = k
      · simp [hp]
      · simp only [if_neg hp]
        exact ih

theorem dictLookup_append_notin {κ α : Type} [DecidableEq κ] (k : κ)
    (l : List (κ × α)) : ∀ m : List (κ × α), m.any (fun p => p.1 = k) = false →
    dictLookup k (m ++ l) = dictLookup k l := by
  intro m
  induction m with
  | nil => intro h; simp
  | cons p rest ih =>
    intro h
    simp only [List.any_cons, Bool.or_eq_false_iff, decide_eq_false_iff_not] at h
    simp only [List.cons_append, dictLookup, if_neg h.1]
    exact ih (by simpa using h.2)

theorem dictLookup_append_ne {κ α : Type} [DecidableEq κ] (k k2 : κ) (v : α)
    (hne : k ≠ k2) : ∀ m : List (κ × α),
    dictLookup k (m ++ [(k2, v)]) = dictLookup k m := by
  intro m
  induction m with
  | nil =>
    simp only [List.nil_append, dictLookup,
      if_neg (show ¬ k2 = k from fun hh => hne hh.symm)]
  | cons p rest ih =>
    by_cases hp : p.1 = k
    · simp [dictLookup, hp]
    · simp only [List.cons_append, dictLookup, if_neg hp]
      exact ih

theorem dictLookup_dictInsert_self {κ α : Type} [DecidableEq κ] (k : κ) (v : α)
    (m : List (κ × α)) : dictLookup k (dictInsert k v m) = some v := by
  unfold dictInsert
  by_cases h : m.any (fun p => p.1 = k) = true
  · simpa [h] using dictLookup_update_self k v m h
  · simp only [Bool.not_eq_true] at h
    rw [if_neg (by simp [h]), dictLookup_append_notin k _ m h]
    simp [dictLookup]

theorem dictLookup_dictInsert_ne {κ α : Type} [DecidableEq κ] (k k2 : κ) (v : α)
    (m : List (κ × α)) (hne : k ≠ k2) :
    dictLookup k (dictInsert k2 v m) = dictLookup k m := by
  unfold dictInsert
  by_cases h : m.any (fun p => p.1 = k2) = true
  · simpa [h] using dictLookup_update_other k k2 v hne m
  · simp only [Bool.not_eq_true] at h
    rw [if_neg (by simp [h])]
    exact dictLookup_append_ne k k2 v hne m

theorem dictHasKey_dictInsert {κ α : Type} [DecidableEq κ] (k k2 : κ) (v : α)
    (m : List (κ × α)) (h : dictHasKey k m = true) :
    dictHasKey k (dictInsert k2 v m) = true := by
  unfold dictHasKey at h ⊢
  by_cases hk : k = k2
  · subst hk
    rw [dictLookup_dictInsert_self]
    rfl
  · rw [dictLookup_dictInsert_ne k k2 v m hk]
    exact h

/-- `handle_message` merging only adds entries to the event map: every key
present before the merge is still present after. -/
theorem dictHasKey_mergeEvents (k : Option String)
    (es : List (Option String × StoredEventValue)) (p : EventsPayload)
    (h : dictHasKey k es = true) : dictHasKey k (mergeEvents es p) = true := by
  unfold mergeEvents
  have hfold : ∀ (l : List (String × FormEventData))
      (es0 : List (Option String × StoredEventValue)), dictHasKey k es0 = true →
      dictHasKey k (l.foldl (fun acc kv =>
        match kv.2.value with
        | some v => dictInsert (some kv.1) (StoredEventValue.fromForm v) acc
        | none => acc) es0) = true := by
    intro l
    induction l with
    | nil => intro es0 h0; exact h0
    | cons kv rest ih =>
      intro es0 h0
      simp only [List.foldl_cons]
      apply ih
      cases hv : kv.2.value with
      | none => simpa [hv] using h0
      | some v => simp only [hv]; exact dictHasKey_dictInsert k _ _ es0 h0
  have h1 : dictHasKey k (if p.formEvents.isEmpty then es
      else p.formEvents.foldl (fun acc kv =>
        match kv.2.value with
        | some v => dictInsert (some kv.1) (StoredEventValue.fromForm v) acc
        | none => acc) es) = true := by
    by_cases he : p.formEvents.isEmpty
    · simpa [he] using h
    · simp only [he, if_false]
      exact hfold p.formEvents es h
  cases hf : p.fileEvent with
  | none => simpa [hf] using h1
  | some fe => simp only [hf]; exact dictHasKey_dictInsert k _ _ _ h1

/-- The post-reset phase of `handle_message` never touches the State Store,
never changes the recorded sender, and only adds entries to the event-value
map and the event store. -/
theorem pairedPhase_effects (s : EventBase) (m : InboundMessage) :
    (s.pairedPhase m).state = s.state ∧
    (s.pairedPhase m).sender_id = s.sender_id ∧
    (∀ k, dictHasKey k s.events = true → dictHasKey k (s.pairedPhase m).events = true) ∧
    (∀ k, dictHasKey k s.events_store = true →
      dictHasKey k (s.pairedPhase m).events_store = true) := by
  unfold EventBase.pairedPhase
  by_cases h1 : pyTruthyStr s.sender_id = true
  · simp only [h1, if_true]
    by_cases h2 : s.paired = true
    · simp only [h2, if_true]
      by_cases h3 : m.mtype = some "events"
      · simp only [if_pos h3, dictLookup_dictInsert_self]
        refine ⟨?_, ?_, fun k hk => ?_, fun k hk => ?_⟩
        · split <;> rfl
        · split <;> rfl
        · have hm := dictHasKey_mergeEvents k s.events m.payload hk
          split <;> simpa using hm
        · have hi := dictHasKey_dictInsert k "payload" m.payload s.events_store hk
          split <;> simpa using hi
      · simp only [if_neg h3]
        refine ⟨?_, ?_, fun k hk => ?_, fun k hk => ?_⟩
        · split <;> rfl
        · split <;> rfl
        · split <;> simpa using hk
        · split <;> simpa using hk
    · simp only [Bool.not_eq_true] at h2
      simp [h2]
  · simp only [Bool.not_eq_true] at h1
    simp [h1]

/-- C2: after a second Event Record from the already-paired sender A the
State Store is untouched and the event map and event store keep all their
entries; and processing a following record from a different non-empty sender
B first clears the event store, the event map and the State Store — before
the pairing/merge phase performs any other mutation for that record
(`handle_message` factors exactly as header, reset, then pairing/merge). -/
theorem pairing_reset_exact (A B : String) (hA : A ≠ "") (hB : B ≠ "") (hAB : A ≠ B)
    (s : EventBase) (hs : s.sender_id = some A)
    (m2 m3 : InboundMessage) (h2 : m2.sender_id = some A) (h3 : m3.sender_id = some B) :
    ((s.handle_message m2).state = s.state ∧
     (s.handle_message m2).sender_id = some A ∧
     (∀ k, dictHasKey k s.events = true →
        dictHasKey k (s.handle_message m2).events = true) ∧
     (∀ k, dictHasKey k s.events_store = true →
        dictHasKey k (s.handle_message m2).events_store = true)) ∧
    ((((s.handle_message m2).headerPhase m3).resetPhase).events_store = [] ∧
     (((s.handle_message m2).headerPhase m3).resetPhase).events = [] ∧
     (((s.handle_message m2).headerPhase m3).resetPhase).state = [] ∧
     (s.handle_message m2).handle_message m3 =
       ((((s.handle_message m2).headerPhase m3).resetPhase).pairedPhase m3)) := by
  have hreset2 : (s.headerPhase m2).resetPhase = s.headerPhase m2 := by
    unfold EventBase.resetPhase
    rw [if_neg]
    simp [EventBase.headerPhase, hs, h2]
  have hstep2 : s.handle_message m2 = (s.headerPhase m2).pairedPhase m2 := by
    unfold EventBase.handle_message
    rw [hreset2]
  have heff := pairedPhase_effects (s.headerPhase m2) m2
  have hsender : (s.handle_message m2).sender_id = some A := by
    rw [hstep2, heff.2.1]
    simp [EventBase.headerPhase, h2]
  constructor
  · refine ⟨?_, hsender, fun k hk => ?_, fun k hk => ?_⟩
    · rw [hstep2, heff.1]
      simp [EventBase.headerPhase]
    · rw [hstep2]
      exact heff.2.2.1 k (by simpa [EventBase.headerPhase] using hk)
    · rw [hstep2]
      exact heff.2.2.2 k (by simpa [EventBase.headerPhase] using hk)
  · have hfire : (((s.handle_message m2).headerPhase m3).resetPhase) =
        { ((s.handle_message m2).headerPhase m3) with
          events_store := [], events := [], state := [] } := by
      unfold EventBase.resetPhase
      rw [if_pos]
      simp only [EventBase.headerPhase, hsender, h3, pyTruthyStr]
      simp [hA, hAB]
    refine ⟨?_, ?_, ?_, rfl⟩
    · rw [hfire]
    · rw [hfire]
    · rw [hfire]

/-- Witness for C2 at a concrete paired session: senders a, a, b. -/
theorem pairing_reset_exact_witness :
    ("a" : String) ≠ "" ∧ ("b" : String) ≠ "" ∧ ("a" : String) ≠ "b" ∧
    pairedStateA.sender_id = some "a" ∧
    msgA2.sender_id = some "a" ∧ msgB.sender_id = some "b" ∧
    (((pairedStateA.handle_message msgA2).state = pairedStateA.state ∧
      (pairedStateA.handle_message msgA2).sender_id = some "a" ∧
      (∀ k, dictHasKey k pairedStateA.events = true →
         dictHasKey k (pairedStateA.handle_message msgA2).events = true) ∧
      (∀ k, dictHasKey k pairedStateA.events_store = true →
         dictHasKey k (pairedStateA.handle_message msgA2).events_store = true)) ∧
     ((((pairedStateA.handle_message msgA2).headerPhase msgB).resetPhase).events_store = [] ∧
      (((pairedStateA.handle_message msgA2).headerPhase msgB).resetPhase).events = [] ∧
      (((pairedStateA.handle_message msgA2).headerPhase msgB).resetPhase).state = [] ∧
      (pairedStateA.handle_message msgA2).handle_message msgB =
        ((((pairedStateA.handle_message msgA2).headerPhase msgB).resetPhase).pairedPhase
          msgB))) := by
  refine ⟨by decide, by decide, by decide, rfl, rfl, rfl, ?_⟩
  exact pairing_reset_exact "a" "b" (by decide) (by decide) (by decide)
    pairedStateA rfl msgA2 msgB rfl rfl

/-! ### Chunk-arrival order independence (C7) -/

theorem dictLookup_of_mem_nodup {α : Type} (k : Nat) (v : α) :
    ∀ l : List (Nat × α), (l.map Prod.fst).Nodup → (k, v) ∈ l →
    dictLookup k l = some v := by
  intro l
  induction l with
  | nil => intro _ hm; simp at hm
  | cons p rest ih =>
    intro hnd hm
    rcases List.mem_cons.mp hm with he | hm2
    · rw [← he]
      simp [dictLookup]
    · rw [List.map_cons] at hnd
      have hk : k ∈ rest.map Prod.fst := List.mem_map.mpr ⟨(k, v), hm2, rfl⟩
      have hp : ¬ p.1 = k := by
        intro hh
        have := (List.nodup_cons.mp hnd).1
        rw [hh] at this
        exact this hk
      simp only [dictLookup, if_neg hp]
      exact ih (List.nodup_cons.mp hnd).2 hm2

theorem mapM_dictLookup_of_lookups (dat : List (Nat × Chunk)) (f : Nat → Chunk) :
    ∀ l : List Nat, (∀ i ∈ l, dictLookup i dat = some (f i)) →
    l.mapM (fun i => dictLookup i dat) = some (l.map f) := by
  intro l
  induction l with
  | nil => intro _; rfl
  | cons i rest ih =>
    intro h
    rw [List.mapM_cons]
    rw [h i (List.mem_cons_self i rest), ih (fun j hj => h j (List.mem_cons_of_mem i hj))]
    rfl

theorem add_chunk_empty_eq (mid : String) (total : Nat) (sender : String) (now : Nat)
    (i : Nat) (c : Chunk) :
    (ChunkTracker.empty.add_chunk mid i total c sender now).2
      = singleEntryTracker mid total sender now [i] [(i, c)] := by
  simp [ChunkTracker.add_chunk, ChunkTracker.empty, dictHasKey, dictLookup, dictInsert,
    keyInsert, singleEntryTracker]

theorem add_chunk_singleEntry (mid : String) (total : Nat) (sender : String) (now : Nat)
    (recv : List Nat) (dat : List (Nat × Chunk)) (i : Nat) (c : Chunk)
    (hkeys : recv = dat.map Prod.fst) (hi : i ∉ recv) :
    ((singleEntryTracker mid total sender now recv dat).add_chunk mid i total c sender now).2
      = singleEntryTracker mid total sender now (recv ++ [i]) (dat ++ [(i, c)]) := by
  have hany : dat.any (fun p => p.1 = i) = false := by
    rw [List.any_eq_false]
    intro p hp
    simp only [decide_eq_true_eq]
    intro hh
    exact hi (hkeys ▸ List.mem_map.mpr ⟨p, hp, hh⟩)
  simp [ChunkTracker.add_chunk, singleEntryTracker, dictHasKey, dictLookup, dictInsert,
    keyInsert, hi, hany]

theorem addChunks_singleEntry (mid : String) (total : Nat) (sender : String) (now : Nat) :
    ∀ (arr : List (Nat × Chunk)) (recv : List Nat) (dat : List (Nat × Chunk)),
    recv = dat.map Prod.fst → (∀ p ∈ arr, p.1 ∉ recv) → (arr.map Prod.fst).Nodup →
    ChunkTracker.addChunks (singleEntryTracker mid total sender now recv dat)
        mid total sender now arr
      = singleEntryTracker mid total sender now (recv ++ arr.map Prod.fst) (dat ++ arr) := by
  intro arr
  induction arr with
  | nil => intro recv dat _ _ _; simp [ChunkTracker.addChunks]
  | cons p rest ih =>
    intro recv dat hkeys hdis hnd
    rw [List.map_cons] at hnd
    have hstep := add_chunk_singleEntry mid total sender now recv dat p.1 p.2 hkeys
      (hdis p (List.mem_cons_self p rest))
    have hnd2 : (rest.map Prod.fst).Nodup := (List.nodup_cons.mp hnd).2
    have hhead : p.1 ∉ rest.map Prod.fst := (List.nodup_cons.mp hnd).1
    have hdis2 : ∀ q ∈ rest, q.1 ∉ recv ++ [p.1] := by
      intro q hq
      simp only [List.mem_append, List.mem_singleton]
      rintro (hin | heq)
      · exact hdis q (List.mem_cons_of_mem p hq) hin
      · exact hhead (heq ▸ List.mem_map.mpr ⟨q, hq, rfl⟩)
    have hkeys2 : recv ++ [p.1] = (dat ++ [p]).map Prod.fst := by
      simp [hkeys]
    unfold ChunkTracker.addChunks at ih ⊢
    simp only [List.foldl_cons]
    have hp2 : (p.1, p.2) = p := rfl
    rw [hp2] at hstep
    rw [hstep, ih (recv ++ [p.1]) (dat ++ [p]) hkeys2 hdis2 hnd2]
    simp

theorem addChunks_empty_eq (mid : String) (total : Nat) (sender : String) (now : Nat)
    (a : Nat × Chunk) (arest : List (Nat × Chunk))
    (hnd : ((a :: arest).map Prod.fst).Nodup) :
    ChunkTracker.addChunks ChunkTracker.empty mid total sender now (a :: arest)
      = singleEntryTracker mid total sender now ((a :: arest).map Prod.fst) (a :: arest) := by
  rw [List.map_cons] at hnd
  have hnd2 : (arest.map Prod.fst).Nodup := (List.nodup_cons.mp hnd).2
  have hhead : a.1 ∉ arest.map Prod.fst := (List.nodup_cons.mp hnd).1
  have hdis : ∀ q ∈ arest, q.1 ∉ [a.1] := by
    intro q hq
    simp only [List.mem_singleton]
    intro heq
    exact hhead (heq ▸ List.mem_map.mpr ⟨q, hq, rfl⟩)
  unfold ChunkTracker.addChunks
  simp only [List.foldl_cons]
  have h1 : (ChunkTracker.empty.add_chunk mid a.1 total a.2 sender now).2
      = singleEntryTracker mid total sender now [a.1] [a] := by
    have := add_chunk_empty_eq mid total sender now a.1 a.2
    simpa using this
  rw [h1]
  have := addChunks_singleEntry mid total sender now arest [a.1] [a] (by simp) hdis hnd2
  unfold ChunkTracker.addChunks at this
  rw [this]
  simp

theorem get_complete_singleEntry_fst (mid sender : String) (now n : Nat) (f : Nat → Chunk)
    (recv : List Nat) (dat : List (Nat × Chunk)) (hlen : recv.length = n)
    (hmap : (List.range n).mapM (fun i => dictLookup i dat) = some ((List.range n).map f)) :
    ((singleEntryTracker mid n sender now recv dat).get_complete_message mid).1
      = reassembleOf n f sender := by
  have hlook : dictLookup mid (singleEntryTracker mid n sender now recv dat).chunks
      = some { total_chunks := n, received_chunks := recv, data := dat,
               sender_id := sender, timestamp := now } := by
    simp [singleEntryTracker, dictLookup]
  have hic : (singleEntryTracker mid n sender now recv dat).is_complete mid = true := by
    simp [ChunkTracker.is_complete, hlook, hlen]
  unfold ChunkTracker.get_complete_message
  rw [hic]
  simp only [Bool.true_eq_false, if_false, hlook]
  simp only [hmap]
  unfold reassembleOf
  cases hm : (List.range n).map f with
  | nil => simp [hm]
  | cons first rest =>
    simp only [hm]
    cases hfe : first.payload.fileEvent with
    | none => simp [hfe]
    | some fe0 =>
      simp only [hfe]
      by_cases hty : first.payload.ptype = some "file-change"
      · simp only [if_pos hty]
        cases hfes : (first :: rest).mapM (fun c => c.payload.fileEvent) with
        | none => simp [hfes]
        | some fes => simp [hfes, reassembledFrom]
      · simp [if_neg hty]

/-- C7: for every n-chunk transfer and every order in which its n distinct
chunks arrive, the retrieval result is identical to the one produced by
in-order arrival — reassembly concatenates the chunk payload segments in
ascending `chunk_index` order, independent of arrival order. -/
theorem chunk_reassembly_arrival_order_independent (mid sender : String) (now n : Nat)
    (f : Nat → Chunk) (arr : List (Nat × Chunk))
    (hperm : arr.Perm (chunksInOrder n f)) :
    ((ChunkTracker.addChunks ChunkTracker.empty mid n sender now arr).get_complete_message
        mid).1
      = ((ChunkTracker.addChunks ChunkTracker.empty mid n sender now
          (chunksInOrder n f)).get_complete_message mid).1 := by
  have hkeysOrder : (chunksInOrder n f).map Prod.fst = List.range n := by
    simp only [chunksInOrder, List.map_map]
    exact List.map_id (List.range n)
  have hkeysPerm : (arr.map Prod.fst).Perm (List.range n) := by
    have h := hperm.map Prod.fst
    rwa [hkeysOrder] at h
  have hndArr : (arr.map Prod.fst).Nodup := hkeysPerm.nodup_iff.mpr (List.nodup_range n)
  have hndOrd : ((chunksInOrder n f).map Prod.fst).Nodup := by
    rw [hkeysOrder]
    exact List.nodup_range n
  have hlookArr : ∀ i ∈ List.range n, dictLookup i arr = some (f i) := by
    intro i hi
    have hmemOrd : (i, f i) ∈ chunksInOrder n f := by
      exact List.mem_map.mpr ⟨i, hi, rfl⟩
    exact dictLookup_of_mem_nodup i (f i) arr hndArr (hperm.mem_iff.mpr hmemOrd)
  have hlookOrd : ∀ i ∈ List.range n, dictLookup i (chunksInOrder n f) = some (f i) := by
    intro i hi
    exact dictLookup_of_mem_nodup i (f i) (chunksInOrder n f) hndOrd
      (List.mem_map.mpr ⟨i, hi, rfl⟩)
  cases n with
  | zero =>
    have hnil : chunksInOrder 0 f = [] := by simp [chunksInOrder]
    rw [hnil] at hperm ⊢
    rw [List.Perm.eq_nil hperm]
  | succ m =>
    have hlenOrd : (chunksInOrder (m + 1) f).length = m + 1 := by simp [chunksInOrder]
    have hlenArr : arr.length = m + 1 := by rw [hperm.length_eq, hlenOrd]
    cases harr : arr with
    | nil =>
      rw [harr] at hlenArr
      simp at hlenArr
    | cons a arest =>
      cases hord : chunksInOrder (m + 1) f with
      | nil =>
        rw [hord] at hlenOrd
        simp at hlenOrd
      | cons b brest =>
        rw [addChunks_empty_eq mid (m + 1) sender now a arest (by rw [← harr]; exact hndArr),
          addChunks_empty_eq mid (m + 1) sender now b brest (by rw [← hord]; exact hndOrd)]
        have hA := get_complete_singleEntry_fst mid sender now (m + 1) f
          ((a :: arest).map Prod.fst) (a :: arest)
          (by rw [← harr]; simp [hlenArr])
          (mapM_dictLookup_of_lookups (a :: arest) f (List.range (m + 1))
            (by rw [← harr]; exact hlookArr))
        have hB := get_complete_singleEntry_fst mid sender now (m + 1) f
          ((b :: brest).map Prod.fst) (b :: brest)
          (by rw [← hord]; simp [hlenOrd])
          (mapM_dictLookup_of_lookups (b :: brest) f (List.range (m + 1))
            (by rw [← hord]; exact hlookOrd))
        rw [hA, hB]

/-- Witness for C7: chunks of a 3-chunk file upload delivered as (2, 0, 1)
reassemble exactly as the (0, 1, 2) delivery does. -/
theorem chunk_reassembly_arrival_order_independent_witness :
    ([(2, fragChunk 2), (0, fragChunk 0), (1, fragChunk 1)] :
        List (Nat × Chunk)).Perm (chunksInOrder 3 fragChunk) ∧
    ((ChunkTracker.addChunks ChunkTracker.empty "m" 3 "s" 0
        [(2, fragChunk 2), (0, fragChunk 0), (1, fragChunk 1)]).get_complete_message "m").1
      = ((ChunkTracker.addChunks ChunkTracker.empty "m" 3 "s" 0
          (chunksInOrder 3 fragChunk)).get_complete_message "m").1 := by
  refine ⟨by decide, ?_⟩
  exact chunk_reassembly_arrival_order_independent "m" "s" 0 3 fragChunk
    [(2, fragChunk 2), (0, fragChunk 0), (1, fragChunk 1)] (by decide)

/-! ### Idempotency of serialization (C9)

The in-place bookkeeping `to_dict` performs (`_parent`, `_parent_id`,
`_is_prop_component`, `_prop_key` on prop components) sets fields to values
determined by the owner alone, so a second pass re-sets the same values and
serializes the same output. -/

theorem setPropComponentFields_parentRef (t : String) (u : Nat) (k : String)
    (c : MUIComponent) : (setPropComponentFields t u k c).parentRef = some (t, u) := by
  cases c
  rfl

theorem setPropComponentFields_parent_id (t : String) (u : Nat) (k : String)
    (c : MUIComponent) :
    (setPropComponentFields t u k c).parent_id = some (t ++ "_" ++ toString u) := by
  cases c
  rfl

theorem setPropComponentFields_prop_key (t : String) (u : Nat) (k : String)
    (c : MUIComponent) : (setPropComponentFields t u k c).prop_key = some k := by
  cases c
  rfl

theorem setPropComponentFields_is_prop_component (t : String) (u : Nat) (k : String)
    (c : MUIComponent) : (setPropComponentFields t u k c).is_prop_component = true := by
  cases c
  rfl

theorem setPropComponentFields_of_set (t : String) (u : Nat) (k : String)
    (c : MUIComponent) (h1 : c.parentRef = some (t, u))
    (h2 : c.parent_id = some (t ++ "_" ++ toString u)) (h3 : c.prop_key = some k)
    (h4 : c.is_prop_component = true) : setPropComponentFields t u k c = c := by
  cases c
  simp only [MUIComponent.parentRef, MUIComponent.parent_id, MUIComponent.prop_key,
    MUIComponent.is_prop_component] at h1 h2 h3 h4
  simp [setPropComponentFields, h1, h2, h3, h4]

theorem to_dict_fst_parentRef (c : MUIComponent) : (c.to_dict.1).parentRef = c.parentRef := by
  cases c
  simp [MUIComponent.to_dict, MUIComponent.parentRef]

theorem to_dict_fst_parent_id (c : MUIComponent) : (c.to_dict.1).parent_id = c.parent_id := by
  cases c
  simp [MUIComponent.to_dict, MUIComponent.parent_id]

theorem to_dict_fst_prop_key (c : MUIComponent) : (c.to_dict.1).prop_key = c.prop_key := by
  cases c
  simp [MUIComponent.to_dict, MUIComponent.prop_key]

theorem to_dict_fst_is_prop_component (c : MUIComponent) :
    (c.to_dict.1).is_prop_component = c.is_prop_component := by
  cases c
  simp [MUIComponent.to_dict, MUIComponent.is_prop_component]

theorem childIsSpecialProp_to_dict (t : String) (c : MUIComponent) :
    childIsSpecialProp t (c.to_dict.1) = childIsSpecialProp t c := by
  unfold childIsSpecialProp
  rw [to_dict_fst_prop_key]

mutual

theorem to_dict_idem_aux (c : MUIComponent) : (c.to_dict.1).to_dict = c.to_dict := by
  cases c with
  | mk ty uid module ps cs tc pr pid pk ipc =>
    simp only [MUIComponent.to_dict]
    rw [processPropsStep_idem_aux ty uid ps,
      serializeChildrenStep_idem_aux ty (ty ++ "_" ++ toString uid) cs]
termination_by c.csize
decreasing_by
  all_goals simp [MUIComponent.csize, MUIProps.csize, MUIPropValue.csize,
    MUIChildren.csize, MUIChild.csize, csize_setPropComponentFields]
  all_goals try omega

theorem processPropsStep_idem_aux (t : String) (u : Nat) (ps : MUIProps) :
    processPropsStep t u (processPropsStep t u ps).1 = processPropsStep t u ps := by
  cases ps with
  | nil => simp [processPropsStep]
  | cons key v rest =>
    cases v with
    | prim s =>
      simp only [processPropsStep]
      rw [processPropsStep_idem_aux t u rest]
    | comp c =>
      simp only [processPropsStep]
      have hset : setPropComponentFields t u key
          ((setPropComponentFields t u key c).to_dict.1)
          = (setPropComponentFields t u key c).to_dict.1 := by
        apply setPropComponentFields_of_set
        · rw [to_dict_fst_parentRef, setPropComponentFields_parentRef]
        · rw [to_dict_fst_parent_id, setPropComponentFields_parent_id]
        · rw [to_dict_fst_prop_key, setPropComponentFields_prop_key]
        · rw [to_dict_fst_is_prop_component, setPropComponentFields_is_prop_component]
      rw [hset, to_dict_idem_aux (setPropComponentFields t u key c),
        processPropsStep_idem_aux t u rest]
termination_by ps.csize
decreasing_by
  all_goals simp [MUIComponent.csize, MUIProps.csize, MUIPropValue.csize,
    MUIChildren.csize, MUIChild.csize, csize_setPropComponentFields]
  all_goals try omega

theorem serializeChildrenStep_idem_aux (t i : String) (cs : MUIChildren) :
    serializeChildrenStep t i (serializeChildrenStep t i cs).1 = serializeChildrenStep t i cs := by
  cases cs with
  | nil => simp [serializeChildrenStep]
  | cons ch rest =>
    cases ch with
    | textChild tid tcontent tpid =>
      simp only [serializeChildrenStep]
      rw [serializeChildrenStep_idem_aux t i rest]
    | comp c =>
      by_cases hsp : childIsSpecialProp t c = true
      · simp only [serializeChildrenStep, if_pos hsp, childIsSpecialProp_to_dict t c,
          serializeChildrenStep_idem_aux t i rest]
      · simp only [serializeChildrenStep, if_neg hsp, childIsSpecialProp_to_dict t c,
          serializeChildrenStep_idem_aux t i rest, to_dict_idem_aux c]
termination_by cs.csize
decreasing_by
  all_goals simp [MUIComponent.csize, MUIProps.csize, MUIPropValue.csize,
    MUIChildren.csize, MUIChild.csize, csize_setPropComponentFields]
  all_goals try omega

end

/-- C9: serializing an unmodified node twice yields structurally equal
output, and the bookkeeping side effects of the first `to_dict` call leave
the node in a state the second call maps to the very same dict (the produced
dict has no timestamp field of its own; a timestamp only enters the
`component_update` payload at transmission time). -/
theorem to_dict_idempotent (c : MUIComponent) :
    ((c.to_dict.1).to_dict).2 = (c.to_dict).2 ∧
    ((c.to_dict.1).to_dict).1 = (c.to_dict).1 := by
  exact ⟨congrArg Prod.snd (to_dict_idem_aux c), congrArg Prod.fst (to_dict_idem_aux c)⟩

/-! ### Prop components versus children (C8) -/

theorem to_dict_snd_id (c : MUIComponent) : ((c.to_dict).2).id = c.dictId := by
  cases c
  simp [MUIComponent.to_dict, MUIComponent.dictId, ComponentDict.id,
    MUIComponent.ty, MUIComponent.uid]

theorem to_dict_snd_ty (c : MUIComponent) : ((c.to_dict).2).ty = c.ty := by
  cases c
  simp [MUIComponent.to_dict, ComponentDict.ty, MUIComponent.ty]

theorem to_dict_fst_ty (c : MUIComponent) : ((c.to_dict).1).ty = c.ty := by
  cases c
  simp [MUIComponent.to_dict, MUIComponent.ty]

theorem to_dict_fst_uid (c : MUIComponent) : ((c.to_dict).1).uid = c.uid := by
  cases c
  simp [MUIComponent.to_dict, MUIComponent.uid]

theorem to_dict_fst_dictId (c : MUIComponent) : ((c.to_dict).1).dictId = c.dictId := by
  unfold MUIComponent.dictId
  rw [to_dict_fst_ty, to_dict_fst_uid]

theorem setPropComponentFields_ty (t : String) (u : Nat) (k : String) (c : MUIComponent) :
    (setPropComponentFields t u k c).ty = c.ty := by
  cases c
  rfl

theorem setPropComponentFields_uid (t : String) (u : Nat) (k : String) (c : MUIComponent) :
    (setPropComponentFields t u k c).uid = c.uid := by
  cases c
  rfl

theorem setPropComponentFields_dictId (t : String) (u : Nat) (k : String)
    (c : MUIComponent) : (setPropComponentFields t u k c).dictId = c.dictId := by
  unfold MUIComponent.dictId
  rw [setPropComponentFields_ty, setPropComponentFields_uid]

theorem setParentId_id (d : ComponentDict) (pid : String) :
    (d.setParentId pid).id = d.id := by
  cases d
  rfl

theorem setContent_id (d : ComponentDict) (txt : String) :
    (d.setContent txt).id = d.id := by
  cases d
  rfl

theorem setProps_id (d : ComponentDict) (ps : PropsOut) : (d.setProps ps).id = d.id := by
  cases d
  rfl

theorem ensureChildren_id (d : ComponentDict) : d.ensureChildren.id = d.id := by
  cases d with
  | mk t i m ps pid c ch =>
    cases ch with
    | none => rfl
    | some co => rfl

theorem appendChild_id (d : ComponentDict) (ch : ChildOut) :
    (d.appendChild ch).id = d.id := by
  cases d
  rfl

theorem setParentId_childIds (d : ComponentDict) (pid : String) :
    (d.setParentId pid).childIds = d.childIds := by
  cases d
  rfl

theorem setContent_childIds (d : ComponentDict) (txt : String) :
    (d.setContent txt).childIds = d.childIds := by
  cases d
  rfl

theorem setProps_childIds (d : ComponentDict) (ps : PropsOut) :
    (d.setProps ps).childIds = d.childIds := by
  cases d
  rfl

theorem ensureChildren_childIds (d : ComponentDict) :
    d.ensureChildren.childIds = d.childIds := by
  cases d with
  | mk t i m ps pid c ch =>
    cases ch with
    | none => rfl
    | some co => rfl

theorem ChildrenOut.append_ids (co : ChildrenOut) (ch : ChildOut) :
    (co.append ch).ids = co.ids ++ [ch.entryId] := by
  cases co with
  | nil => rfl
  | cons c rest => simp [ChildrenOut.append, ChildrenOut.ids, ChildrenOut.append_ids rest ch]

theorem appendChild_childIds (d : ComponentDict) (ch : ChildOut) :
    (d.appendChild ch).childIds = d.childIds ++ [ch.entryId] := by
  cases d with
  | mk t i m ps pid c chs =>
    cases chs with
    | none => simp [ComponentDict.appendChild, ComponentDict.childIds,
        ComponentDict.children, ChildrenOut.append_ids, ChildrenOut.ids]
    | some co => simp [ComponentDict.appendChild, ComponentDict.childIds,
        ComponentDict.children, ChildrenOut.append_ids]

theorem ChildrenOut.existsId_iff_mem (co : ChildrenOut) (i : String) :
    co.existsId i = true ↔ i ∈ co.ids := by
  cases co with
  | nil => simp [ChildrenOut.existsId, ChildrenOut.ids]
  | cons c rest =>
    simp only [ChildrenOut.existsId, ChildrenOut.ids, Bool.or_eq_true, decide_eq_true_eq,
      List.mem_cons, ChildrenOut.existsId_iff_mem rest i]
    constructor
    · rintro (h | h)
      · exact Or.inl h.symm
      · exact Or.inr h
    · rintro (h | h)
      · exact Or.inl h.symm
      · exact Or.inr h

theorem setProps_ty (d : ComponentDict) (ps : PropsOut) : (d.setProps ps).ty = d.ty := by
  cases d
  rfl

theorem appendChild_ty (d : ComponentDict) (ch : ChildOut) :
    (d.appendChild ch).ty = d.ty := by
  cases d
  rfl

theorem ensureChildren_ty (d : ComponentDict) : d.ensureChildren.ty = d.ty := by
  cases d with
  | mk t i m ps pid c ch =>
    cases ch with
    | none => rfl
    | some co => rfl

theorem to_dict_fst_props (c : MUIComponent) :
    ((c.to_dict).1).props = (processPropsStep c.ty c.uid c.props).1 := by
  cases c
  simp [MUIComponent.to_dict, MUIComponent.props, MUIComponent.ty, MUIComponent.uid]

theorem to_dict_childIds (c : MUIComponent) :
    ((c.to_dict).2).childIds
      = (serializeChildrenStep c.ty c.dictId c.children).2.ids := by
  cases c with
  | mk ty uid module ps cs tc pr pid pk ipc =>
    simp only [MUIComponent.to_dict, MUIComponent.ty, MUIComponent.uid,
      MUIComponent.children, MUIComponent.dictId, ComponentDict.childIds,
      ComponentDict.children]
    cases h : (serializeChildrenStep ty (ty ++ "_" ++ toString uid) cs).2 with
    | nil => simp [h, ChildrenOut.ids]
    | cons a rest => simp [h]

theorem serializeChildrenStep_ids_subset (t i2 : String) (cs : MUIChildren) :
    ∀ j ∈ (serializeChildrenStep t i2 cs).2.ids, j ∈ cs.entryIds := by
  cases cs with
  | nil =>
    intro j hj
    simp [serializeChildrenStep, ChildrenOut.ids] at hj
  | cons ch rest =>
    intro j hj
    cases ch with
    | textChild tid tcontent tpid =>
      simp only [serializeChildrenStep, ChildrenOut.ids, ChildOut.entryId,
        List.mem_cons] at hj
      rcases hj with h | h
      · simp [MUIChildren.entryIds, h]
      · exact List.mem_cons_of_mem _ (serializeChildrenStep_ids_subset t i2 rest j h)
    | comp c =>
      by_cases hsp : childIsSpecialProp t c = true
      · simp only [serializeChildrenStep, if_pos hsp] at hj
        exact List.mem_cons_of_mem _ (serializeChildrenStep_ids_subset t i2 rest j hj)
      · simp only [serializeChildrenStep, if_neg hsp, ChildrenOut.ids,
          ChildOut.entryId, List.mem_cons] at hj
        rcases hj with h | h
        · rw [setParentId_id, to_dict_snd_id] at h
          simp [MUIChildren.entryIds, h]
        · exact List.mem_cons_of_mem _ (serializeChildrenStep_ids_subset t i2 rest j h)

theorem appendValueChildren_id (pd : ComponentDict) (cs : MUIChildren) :
    (appendValueChildren pd cs).1.id = pd.id := by
  cases cs with
  | nil => simp [appendValueChildren]
  | cons ch rest =>
    cases ch with
    | comp c =>
      simp only [appendValueChildren]
      split
      · rw [appendValueChildren_id pd rest]
      · rw [appendValueChildren_id _ rest, appendChild_id]
    | textChild tid tcontent tpid =>
      simp only [appendValueChildren]
      split
      · rw [appendValueChildren_id pd rest]
      · rw [appendValueChildren_id _ rest, appendChild_id]

theorem specialAssign_id (d : ComponentDict) (ps : MUIProps) (keys : List String) :
    (specialAssign d ps keys).1.id = d.id := by
  induction keys generalizing d ps with
  | nil => simp [specialAssign]
  | cons k rest ih =>
    simp only [specialAssign]
    split
    · rw [ih, setProps_id]
    · rw [ih]

theorem specialAssign_childIds (d : ComponentDict) (ps : MUIProps) (keys : List String) :
    (specialAssign d ps keys).1.childIds = d.childIds := by
  induction keys generalizing d ps with
  | nil => simp [specialAssign]
  | cons k rest ih =>
    simp only [specialAssign]
    split
    · rw [ih, setProps_childIds]
    · rw [ih]

theorem specialAssign_ty (d : ComponentDict) (ps : MUIProps) (keys : List String) :
    (specialAssign d ps keys).1.ty = d.ty := by
  induction keys generalizing d ps with
  | nil => simp [specialAssign]
  | cons k rest ih =>
    simp only [specialAssign]
    split
    · rw [ih, setProps_ty]
    · rw [ih]

theorem pd_id_helper (b : Bool) (pdc : ComponentDict) (x : ChildOut) :
    (if b = true then pdc else pdc.appendChild x).id = pdc.id := by
  cases b
  · simp [appendChild_id]
  · simp

theorem ite_appendChild_id (d : ComponentDict) (b : Bool) (x : ChildOut) :
    (if b = true then d.appendChild x else d).id = d.id := by
  cases b
  · simp
  · simp [appendChild_id]

theorem ite_appendChild_ty (d : ComponentDict) (b : Bool) (x : ChildOut) :
    (if b = true then d.appendChild x else d).ty = d.ty := by
  cases b
  · simp
  · simp [appendChild_ty]

theorem ite_appendChild_childIds_mem (d : ComponentDict) (b : Bool) (x : ChildOut)
    (j : String) (hj : j ∈ d.childIds) :
    j ∈ (if b = true then d.appendChild x else d).childIds := by
  cases b
  · simpa using hj
  · simp only [appendChild_childIds]
    simp [appendChild_childIds, List.mem_append, hj]

theorem propDictWithText_id (pd1 : ComponentDict) (c1 : MUIComponent) :
    (propDictWithText pd1 c1).id = pd1.id := by
  cases htc : c1.text_content with
  | none => simp [propDictWithText, htc]
  | some txt =>
    simp only [propDictWithText, htc]
    rw [setContent_id, pd_id_helper, ensureChildren_id]

theorem propDictChildren_fst_id (pd3 : ComponentDict) (c2 : MUIComponent) :
    (propDictChildren pd3 c2).1.id = pd3.id := by
  unfold propDictChildren
  split
  · rfl
  · rw [appendValueChildren_id, ensureChildren_id]

theorem buildCompleteLoop_fst_id (d : ComponentDict) (ps : MUIProps) :
    (buildCompleteLoop d ps).1.id = d.id := by
  cases ps with
  | nil => simp [buildCompleteLoop]
  | cons key v rest =>
    cases v with
    | prim s =>
      simp only [buildCompleteLoop]
      exact buildCompleteLoop_fst_id d rest
    | comp c =>
      simp only [buildCompleteLoop]
      rw [buildCompleteLoop_fst_id _ rest]
      exact ite_appendChild_id d _ _

theorem buildCompleteLoop_fst_ty (d : ComponentDict) (ps : MUIProps) :
    (buildCompleteLoop d ps).1.ty = d.ty := by
  cases ps with
  | nil => simp [buildCompleteLoop]
  | cons key v rest =>
    cases v with
    | prim s =>
      simp only [buildCompleteLoop]
      exact buildCompleteLoop_fst_ty d rest
    | comp c =>
      simp only [buildCompleteLoop]
      rw [buildCompleteLoop_fst_ty _ rest]
      exact ite_appendChild_ty d _ _

theorem build_complete_fst_id (d : ComponentDict) (ps : MUIProps) :
    (MUIBuilder.build_complete_component_structure d ps).1.id = d.id := by
  simp only [MUIBuilder.build_complete_component_structure]
  rw [setProps_id]
  split
  · rw [buildCompleteLoop_fst_id, ensureChildren_id]
  · rw [specialAssign_id, buildCompleteLoop_fst_id, ensureChildren_id]

theorem propDictRec_fst_id (pd2 : ComponentDict) (c1 : MUIComponent) :
    (propDictRec pd2 c1).1.id = pd2.id := by
  simp only [propDictRec]
  split
  · rfl
  · rw [build_complete_fst_id]

theorem processPropComponent_fst_id (d : ComponentDict) (key : String)
    (c : MUIComponent) : (processPropComponent d key c).1.id = c.dictId := by
  simp only [processPropComponent]
  rw [propDictChildren_fst_id, propDictRec_fst_id, propDictWithText_id,
    setParentId_id, to_dict_snd_id]

theorem buildCompleteLoop_childIds_mono (d : ComponentDict) (ps : MUIProps)
    (j : String) (hj : j ∈ d.childIds) : j ∈ (buildCompleteLoop d ps).1.childIds := by
  cases ps with
  | nil => simpa [buildCompleteLoop] using hj
  | cons key v rest =>
    cases v with
    | prim s =>
      simp only [buildCompleteLoop]
      exact buildCompleteLoop_childIds_mono d rest j hj
    | comp c =>
      simp only [buildCompleteLoop]
      exact buildCompleteLoop_childIds_mono _ rest j
        (ite_appendChild_childIds_mem d _ _ j hj)

theorem mem_entries_key (ps : MUIProps) (k : String) (v : MUIPropValue)
    (h : (k, v) ∈ ps.entries) : k ∈ ps.keys := by
  cases ps with
  | nil => simp [MUIProps.entries] at h
  | cons k2 v2 rest =>
    simp only [MUIProps.entries, List.mem_cons] at h
    rcases h with h | h
    · simp [MUIProps.keys, (Prod.mk.injEq _ _ _ _).mp h]
    · exact List.mem_cons_of_mem _ (mem_entries_key rest k v h)

theorem processPropsStep_mem_comp (t : String) (u : Nat) (ps : MUIProps) (key : String)
    (p : MUIComponent) (h : (key, .comp p) ∈ ps.entries) :
    (key, MUIPropValue.comp (((setPropComponentFields t u key p).to_dict).1))
      ∈ ((processPropsStep t u ps).1).entries := by
  cases ps with
  | nil => simp [MUIProps.entries] at h
  | cons k2 v2 rest =>
    simp only [MUIProps.entries, List.mem_cons] at h
    rcases h with h | h
    · have hk : key = k2 := ((Prod.mk.injEq _ _ _ _).mp h).1
      have hv : MUIPropValue.comp p = v2 := ((Prod.mk.injEq _ _ _ _).mp h).2
      subst hk
      subst hv
      simp [processPropsStep, MUIProps.entries]
    · cases v2 with
      | prim s =>
        simp only [processPropsStep, MUIProps.entries]
        exact List.mem_cons_of_mem _ (processPropsStep_mem_comp t u rest key p h)
      | comp c2 =>
        simp only [processPropsStep, MUIProps.entries]
        exact List.mem_cons_of_mem _ (processPropsStep_mem_comp t u rest key p h)

theorem buildCompleteLoop_includes (d : ComponentDict) (ps : MUIProps) (key : String)
    (p : MUIComponent) (hmem : (key, .comp p) ∈ ps.entries)
    (hns : key ∉ special_component_props d.ty) :
    p.dictId ∈ (buildCompleteLoop d ps).1.childIds := by
  cases ps with
  | nil => simp [MUIProps.entries] at hmem
  | cons k2 v2 rest =>
    simp only [MUIProps.entries, List.mem_cons] at hmem
    rcases hmem with h | h
    · have hk : key = k2 := ((Prod.mk.injEq _ _ _ _).mp h).1
      have hv : MUIPropValue.comp p = v2 := ((Prod.mk.injEq _ _ _ _).mp h).2
      subst hk
      subst hv
      simp only [buildCompleteLoop]
      apply buildCompleteLoop_childIds_mono
      have hid : (processPropComponent d key p).1.id = p.dictId :=
        processPropComponent_fst_id d key p
      by_cases hex : ((d.children.getD .nil).existsId
          ((processPropComponent d key p).1.id)) = true
      · have hin : p.dictId ∈ d.childIds := by
          rw [hid] at hex
          exact (ChildrenOut.existsId_iff_mem _ _).mp hex
        rw [if_neg]
        · exact hin
        · simp [hex]
      · rw [if_pos]
        · rw [appendChild_childIds]
          apply List.mem_append_right
          simp [ChildOut.entryId, hid]
        · simp only [Bool.and_eq_true, Bool.not_eq_true]
          constructor
          · simp [hns]
          · simp only [Bool.not_eq_true] at hex ⊢
            simpa using hex
    · cases v2 with
      | prim s =>
        simp only [buildCompleteLoop]
        exact buildCompleteLoop_includes d rest key p h hns
      | comp c2 =>
        simp only [buildCompleteLoop]
        apply buildCompleteLoop_includes _ rest key p h
        rw [ite_appendChild_ty]
        exact hns

theorem build_complete_fst_childIds (d : ComponentDict) (ps : MUIProps) :
    (MUIBuilder.build_complete_component_structure d ps).1.childIds
      = (buildCompleteLoop d.ensureChildren ps).1.childIds := by
  simp only [MUIBuilder.build_complete_component_structure]
  rw [setProps_childIds]
  split
  · rfl
  · rw [specialAssign_childIds]

/-- C8 amended: for a node none of whose prop keys fall in its type's
structural-child-slot allow-list (and whose creation-time children do not
already carry a prop-referenced id, which the builder's `_process_args`
flag filtering guarantees), `to_dict` excludes every prop-referenced node
from the serialized children — but the `component_update` record the Builder
emits moves each such prop component out of `props` and lists it under
`children` (deduplicated by id). -/
theorem prop_components_excluded_from_to_dict_but_in_builder_record
    (c : MUIComponent)
    (hns : ∀ k ∈ c.props.keys, k ∉ special_component_props c.ty)
    (hdisj : ∀ key p, (key, MUIPropValue.comp p) ∈ c.props.entries →
      p.dictId ∉ c.children.entryIds) :
    (∀ key p, (key, MUIPropValue.comp p) ∈ c.props.entries →
      p.dictId ∉ ((c.to_dict).2).childIds) ∧
    (∀ key p, (key, MUIPropValue.comp p) ∈ c.props.entries →
      p.dictId ∈ (MUIBuilder.emittedRecord c).childIds) := by
  constructor
  · intro key p hmem hc
    rw [to_dict_childIds] at hc
    exact hdisj key p hmem (serializeChildrenStep_ids_subset _ _ _ _ hc)
  · intro key p hmem
    unfold MUIBuilder.emittedRecord
    rw [build_complete_fst_childIds]
    have hty : ((((c.to_dict).2).ensureChildren)).ty = c.ty := by
      rw [ensureChildren_ty, to_dict_snd_ty]
    have hkey : key ∈ c.props.keys := mem_entries_key _ _ _ hmem
    have hns2 : key ∉ special_component_props ((((c.to_dict).2).ensureChildren)).ty := by
      rw [hty]
      exact hns key hkey
    have hmem2 : (key,
        MUIPropValue.comp (((setPropComponentFields c.ty c.uid key p).to_dict).1))
        ∈ (((c.to_dict).1).props).entries := by
      rw [to_dict_fst_props]
      exact processPropsStep_mem_comp c.ty c.uid c.props key p hmem
    have h := buildCompleteLoop_includes ((((c.to_dict).2)).ensureChildren)
      (((c.to_dict).1).props) key _ hmem2 hns2
    rw [to_dict_fst_dictId, setPropComponentFields_dictId] at h
    exact h

/-- C8 counterexample: a `Box` (no structural child slots) with an icon
component under the named prop `icon` and one text child.  `to_dict` keeps
the icon out of `children` — but the record the Builder emits lists the icon
under `children` (and drops it from `props`), so the claim is false for the
emitted `component_update` record. -/
theorem builder_record_lists_prop_component_under_children :
    special_component_props exBox.ty = [] ∧
    exBox.props.entries = [("icon", .comp exIcon)] ∧
    exIcon.dictId = "Star_1" ∧
    ((exBox.to_dict).2).childIds = ["text_2_0"] ∧
    (MUIBuilder.emittedRecord exBox).childIds = ["text_2_0", "Star_1"] ∧
    (MUIBuilder.emittedRecord exBox).props.keys = [] := by
  have ht1 : toString (1 : Nat) = "1" := rfl
  have ht2 : toString (2 : Nat) = "2" := rfl
  refine ⟨rfl, rfl, by simp [exIcon, MUIComponent.dictId, MUIComponent.ty,
    MUIComponent.uid, ht1], ?_, ?_, ?_⟩
  · simp [exBox, exIcon, MUIComponent.to_dict, processPropsStep, serializeChildrenStep,
      setPropComponentFields, childIsSpecialProp, isSpecialComponentType,
      special_component_props, ComponentDict.childIds, ComponentDict.children,
      ChildrenOut.ids, ChildOut.entryId, ht1, ht2]
  · simp [MUIBuilder.emittedRecord, MUIBuilder.build_complete_component_structure,
      buildCompleteLoop, processPropComponent, propDictRec, propDictWithText,
      propDictChildren, appendValueChildren, specialAssign, filterPropsStep,
      exBox, exIcon, MUIComponent.to_dict, processPropsStep, serializeChildrenStep,
      setPropComponentFields, childIsSpecialProp, isSpecialComponentType,
      special_component_props, ComponentDict.childIds, ComponentDict.children,
      ComponentDict.setProps, ComponentDict.setParentId, ComponentDict.setContent,
      ComponentDict.ensureChildren, ComponentDict.appendChild, ComponentDict.id,
      ComponentDict.ty, ComponentDict.props, ChildrenOut.ids, ChildrenOut.append,
      ChildrenOut.existsId, ChildOut.entryId, MUIComponent.setProps,
      MUIComponent.setChildren, MUIComponent.props, MUIComponent.children,
      MUIComponent.text_content, MUIComponent.uid, MUIComponent.ty,
      MUIComponent.dictId, MUIProps.isEmpty, MUIChildren.isEmpty, PropsOut.keys,
      PropsOut.insert, MUIProps.lookup, MUIProps.updateValue, ht1, ht2]
  · simp [MUIBuilder.emittedRecord, MUIBuilder.build_complete_component_structure,
      buildCompleteLoop, processPropComponent, propDictRec, propDictWithText,
      propDictChildren, appendValueChildren, specialAssign, filterPropsStep,
      exBox, exIcon, MUIComponent.to_dict, processPropsStep, serializeChildrenStep,
      setPropComponentFields, childIsSpecialProp, isSpecialComponentType,
      special_component_props, ComponentDict.childIds, ComponentDict.children,
      ComponentDict.setProps, ComponentDict.setParentId, ComponentDict.setContent,
      ComponentDict.ensureChildren, ComponentDict.appendChild, ComponentDict.id,
      ComponentDict.ty, ComponentDict.props, ChildrenOut.ids, ChildrenOut.append,
      ChildrenOut.existsId, ChildOut.entryId, MUIComponent.setProps,
      MUIComponent.setChildren, MUIComponent.props, MUIComponent.children,
      MUIComponent.text_content, MUIComponent.uid, MUIComponent.ty,
      MUIComponent.dictId, MUIProps.isEmpty, MUIChildren.isEmpty, PropsOut.keys,
      PropsOut.insert, MUIProps.lookup, MUIProps.updateValue, ht1, ht2]

/-- Witness for the amended C8 at the concrete `Box`-with-icon node. -/
theorem prop_components_excluded_witness :
    (∀ k ∈ exBox.props.keys, k ∉ special_component_props exBox.ty) ∧
    (∀ key p, (key, MUIPropValue.comp p) ∈ exBox.props.entries →
      p.dictId ∉ exBox.children.entryIds) ∧
    exIcon.dictId ∉ ((exBox.to_dict).2).childIds ∧
    exIcon.dictId ∈ (MUIBuilder.emittedRecord exBox).childIds := by
  have hns : ∀ k ∈ exBox.props.keys, k ∉ special_component_props exBox.ty := by decide
  have hdisj : ∀ key p, (key, MUIPropValue.comp p) ∈ exBox.props.entries →
      p.dictId ∉ exBox.children.entryIds := by
    intro key p hmem
    simp only [exBox, MUIComponent.props, MUIProps.entries, List.mem_cons,
      List.not_mem_nil, or_false, Prod.mk.injEq, MUIPropValue.comp.injEq] at hmem
    rw [hmem.2]
    decide
  have hmem : ("icon", MUIPropValue.comp exIcon) ∈ exBox.props.entries := by
    rw [show exBox.props.entries = [("icon", MUIPropValue.comp exIcon)] from rfl]
    exact List.mem_cons_self _ _
  refine ⟨hns, hdisj, ?_, ?_⟩
  · exact (prop_components_excluded_from_to_dict_but_in_builder_record exBox
      hns hdisj).1 "icon" exIcon hmem
  · exact (prop_components_excluded_from_to_dict_but_in_builder_record exBox
      hns hdisj).2 "icon" exIcon hmem

/-- Witness for C9 at the concrete `Box`-with-icon node. -/
theorem to_dict_idempotent_witness :
    (((exBox.to_dict.1).to_dict).2 = (exBox.to_dict).2) ∧
    (((exBox.to_dict.1).to_dict).1 = (exBox.to_dict).1) := by
  exact ⟨(to_dict_idempotent exBox).1, (to_dict_idempotent exBox).2⟩

end Aiflow
